import Mathlib

/-!
Verification of the lijk-rs networking core against its specification.

The Rust sources are shallowly embedded: machine integers become `Nat`
(with explicit `% 2 ^ w` where the source wraps), byte buffers become
`List Nat`, fallible functions return `Except`, and `&mut self` methods
become state-passing functions.  `Instant` values become `Nat`
timestamps, with the current instant passed explicitly to every
operation that reads the clock.  `HashMap`s become association lists
keyed by the source's `Eq` implementation, and the transport is
modelled as a log of the datagrams handed to `raw.send`, which is the
only transport effect the verified properties mention.  Each definition
is translated from the corresponding item in the repository (file and
item named in its doc comment); definitions whose declaring file is
absent from the sources are marked `Modelled from the spec`.
-/

/-! ## List helpers modelling `Vec` indexing and in-place updates -/

/-- Element of a list at an index (models `vec[i]` lookups which in the
source are guarded by bounds checks). -/
def nth {α : Type} : List α → Nat → Option α
  | [], _ => none
  | a :: _, 0 => some a
  | _ :: l, n + 1 => nth l n

/-- Element with a default (models `vec[i]` where the source guarantees
the bound). -/
def nthD {α : Type} (l : List α) (i : Nat) (d : α) : α :=
  (nth l i).getD d

/-- In-place update `vec[i] = x` (no-op out of bounds, which the source
never performs). -/
def setNth {α : Type} : List α → Nat → α → List α
  | [], _, _ => []
  | _ :: l, 0, x => x :: l
  | a :: l, n + 1, x => a :: setNth l n x

/-! ## Big-endian byte strings

Models the `to_be_bytes` / `from_be_bytes` pairs used by the codec in
`src/net/traits.rs` (`impl_netcode!`).  A byte is a `Nat < 256`. -/

/-- Big-endian bytes of `v`, `w` bytes wide (`<$t>::to_be_bytes`). -/
def toBeBytes : Nat → Nat → List Nat
  | 0, _ => []
  | w + 1, v => toBeBytes w (v / 256) ++ [v % 256]

/-- Value of a big-endian byte string (`<$t>::from_be_bytes`). -/
def fromBeBytes (l : List Nat) : Nat :=
  l.foldl (fun acc b => acc * 256 + b) 0

/-- Byte content of an ASCII message string (`str::as_bytes`). -/
def strBytes (s : String) : List Nat := s.toList.map Char.toNat

/-! ## Error taxonomy

`ErrorPacket` is translated from `src/net/error.rs` (lines 7-33): the
first variant carries the explicit discriminant `0x01` and the rest
follow in declaration order, so `error as u8` yields declaration index
plus one. -/

/-- Error codes included in an `Error` packet, from `src/net/error.rs`. -/
inductive ErrorPacket : Type
  | TooManyConnections
  | Blacklisted
  | InvalidPacketVersion
  | InvalidPacketSize
  | InvalidPacketLabel
  | Unknown
deriving DecidableEq, Repr

/-- The wire byte of an `ErrorPacket` (`impl From<ErrorPacket> for u8`,
i.e. the Rust discriminant: `TooManyConnections = 0x01` then
successors). -/
def ErrorPacket.toU8 : ErrorPacket → Nat
  | .TooManyConnections => 1
  | .Blacklisted => 2
  | .InvalidPacketVersion => 3
  | .InvalidPacketSize => 4
  | .InvalidPacketLabel => 5
  | .Unknown => 6

/-- Rust `impl From<u8> for ErrorPacket` from `src/net/error.rs`. -/
def ErrorPacket.fromU8 (b : Nat) : ErrorPacket :=
  if b = 1 then .TooManyConnections
  else if b = 2 then .Blacklisted
  else if b = 3 then .InvalidPacketVersion
  else if b = 4 then .InvalidPacketSize
  else if b = 5 then .InvalidPacketLabel
  else .Unknown

/-- A client identifier, `ClientId(u16)` from `src/net/client.rs`. -/
abbrev ClientId := Nat

/-- Sentinel for an unassigned client, `ClientId::INVALID = u16::MAX`. -/
def ClientId.INVALID : ClientId := 65535

/-- A client address, from `src/net/client.rs`: either an in-process id
or an IP (modelled as a `Nat`) with a port. -/
inductive ClientAddr : Type
  | Local (id : ClientId)
  | Ip (ip : Nat) (port : Nat)
deriving DecidableEq, Repr

instance : Inhabited ClientAddr := ⟨ClientAddr.Local 0⟩

/-- Rust `PartialEq for ClientAddr` from `src/net/client.rs` without the
`shared_ip` feature: `Ip` addresses compare on IP only, ignoring the
port.  All `HashMap`s keyed by `ClientAddr` use this equality (and the
matching `Hash`). -/
def ClientAddr.beq : ClientAddr → ClientAddr → Bool
  | .Local i, .Local j => i == j
  | .Ip ip1 _, .Ip ip2 _ => ip1 == ip2
  | _, _ => false

/-- The packet-validation error kinds of the socket generation of the
code (`InvalidPacketError`).  Modelled from the spec: the declaration
file of this enum is absent from the sources, but every variant used is
pinned by `src/net/socket.rs` (`Header`, `Version`, `Source`, `Payload`
per spec section 7). -/
inductive InvalidPacketError : Type
  | Header
  | Version
  | Source
  | Payload
deriving DecidableEq, Repr

/-- The error union of the socket generation of the code (`NetError`).
Modelled from the spec (section 7): the declaration file is absent from
the sources, but each variant and its payload is pinned by its uses in
`src/net/socket.rs` and `src/net/traits.rs`.  Formatted message
arguments are elided to fixed strings; no verified property depends on
message text. -/
inductive NetError : Type
  | NothingToDo
  | NotConnected (addr : ClientAddr)
  | Disconnected
  | SocketError (msg : String)
  | StorageError (msg : String)
  | NetCode (msg : String)
  | InvalidPacket (addr : ClientAddr) (kind : InvalidPacketError) (msg : String)
deriving DecidableEq, Repr

deriving instance DecidableEq for Except

/-! ## The codec (`src/net/traits.rs`)

`encode` produces a byte vector; `decode` returns the value and the
number of bytes consumed, or `NetError::NetCode`. -/

/-- Fixed-width unsigned integer encoding from the `impl_netcode!` macro
(`self.to_be_bytes().to_vec()`), `w` bytes wide. -/
def uintEncode (w v : Nat) : List Nat := toBeBytes w v

/-- Fixed-width unsigned integer decoding from the `impl_netcode!`
macro: fails when fewer than `w` bytes remain, otherwise reads the
first `w` bytes big-endian. -/
def uintDecode (w : Nat) (data : List Nat) : Except NetError (Nat × Nat) :=
  if data.length < w then
    .error (.NetCode ("Not enough bytes to decode int (need " ++
      toString w ++ ", got " ++ toString data.length ++ ")"))
  else
    .ok (fromBeBytes (data.take w), w)

/-- Fixed-width signed integer encoding (two's complement bit pattern of
`to_be_bytes` for the signed types of `impl_netcode!`). -/
def sintEncode (w : Nat) (v : Int) : List Nat :=
  uintEncode w (v % (2 ^ (8 * w))).toNat

/-- Fixed-width signed integer decoding (`from_be_bytes` on the two's
complement bit pattern). -/
def sintDecode (w : Nat) (data : List Nat) : Except NetError (Int × Nat) :=
  match uintDecode w data with
  | .error e => .error e
  | .ok (n, used) =>
    .ok (if n < 2 ^ (8 * w - 1) then (n : Int) else (n : Int) - 2 ^ (8 * w), used)

/-- Rust `impl NetEncoder for bool`: one byte, `0` or `1`. -/
def boolEncode (b : Bool) : List Nat := [if b then 1 else 0]

/-- Rust `impl NetDecoder for bool`: one byte, zero is `false`, nonzero
is `true`; fails on empty input. -/
def boolDecode (data : List Nat) : Except NetError (Bool × Nat) :=
  match data with
  | [] => .error (.NetCode "Not enough bytes to decode bool (need 1, got 0)")
  | b :: _ => .ok (b ≠ 0, 1)

/-- Rust `impl NetEncoder for Vec<u8>`: the bytes themselves. -/
def vecU8Encode (v : List Nat) : List Nat := v

/-- Rust `impl NetDecoder for Vec<u8>`: consumes the whole remainder. -/
def vecU8Decode (data : List Nat) : Except NetError (List Nat × Nat) :=
  .ok (data, data.length)

/-- Whether a byte is a UTF-8 continuation byte (`0x80..=0xBF`). -/
def utf8Cont (b : Nat) : Bool := 0x80 ≤ b && b ≤ 0xBF

/-- UTF-8 validity of a byte string, as checked by
`String::from_utf8` (RFC 3629: no overlong forms, no surrogates, max
`U+10FFFF`). -/
def utf8Valid : List Nat → Bool
  | [] => true
  | b :: rest =>
    if b ≤ 0x7F then utf8Valid rest
    else if 0xC2 ≤ b && b ≤ 0xDF then
      match rest with
      | c :: r => utf8Cont c && utf8Valid r
      | [] => false
    else if b = 0xE0 then
      match rest with
      | c1 :: c2 :: r => (0xA0 ≤ c1 && c1 ≤ 0xBF) && utf8Cont c2 && utf8Valid r
      | _ => false
    else if (0xE1 ≤ b && b ≤ 0xEC) || b = 0xEE || b = 0xEF then
      match rest with
      | c1 :: c2 :: r => utf8Cont c1 && utf8Cont c2 && utf8Valid r
      | _ => false
    else if b = 0xED then
      match rest with
      | c1 :: c2 :: r => (0x80 ≤ c1 && c1 ≤ 0x9F) && utf8Cont c2 && utf8Valid r
      | _ => false
    else if b = 0xF0 then
      match rest with
      | c1 :: c2 :: c3 :: r =>
        (0x90 ≤ c1 && c1 ≤ 0xBF) && utf8Cont c2 && utf8Cont c3 && utf8Valid r
      | _ => false
    else if 0xF1 ≤ b && b ≤ 0xF3 then
      match rest with
      | c1 :: c2 :: c3 :: r => utf8Cont c1 && utf8Cont c2 && utf8Cont c3 && utf8Valid r
      | _ => false
    else if b = 0xF4 then
      match rest with
      | c1 :: c2 :: c3 :: r =>
        (0x80 ≤ c1 && c1 ≤ 0x8F) && utf8Cont c2 && utf8Cont c3 && utf8Valid r
      | _ => false
    else false

/-- Rust `impl NetEncoder for String` (`self.into_bytes()`).  A Rust
`String` is represented by its UTF-8 byte content. -/
def stringEncode (s : List Nat) : List Nat := s

/-- Rust `impl NetDecoder for String`: fails on empty input, then
validates UTF-8 (`String::from_utf8`) and consumes the whole
remainder. -/
def stringDecode (data : List Nat) : Except NetError (List Nat × Nat) :=
  if data.isEmpty then
    .error (.NetCode ("Not enough bytes to decode String (need 1, got " ++
      toString data.length ++ ")"))
  else if utf8Valid data then
    .ok (data, data.length)
  else
    .error (.NetCode "Failed to decode String from bytes")

/-- Rust `impl<T> NetEncoder for Option<T>`: tag byte `1` then the
value, or the single byte `0`. -/
def optionEncode {α : Type} (enc : α → List Nat) : Option α → List Nat
  | some v => 1 :: enc v
  | none => [0]

/-- Rust `impl<T> NetDecoder for Option<T>`: reads the tag byte; zero is
`None`, nonzero decodes the inner value from the remainder. -/
def optionDecode {α : Type} (dec : List Nat → Except NetError (α × Nat))
    (data : List Nat) : Except NetError (Option α × Nat) :=
  match data with
  | [] => .error (.NetCode "Not enough bytes to decode Option")
  | t :: rest =>
    if t = 0 then .ok (none, 1)
    else
      match dec rest with
      | .error e => .error e
      | .ok (v, used) => .ok (some v, used + 1)

/-- A `std::time::Duration` value: whole seconds (`u64`) and the
sub-second nanoseconds (`u32`, always below `10 ^ 9`). -/
structure Duration : Type where
  secs : Nat
  nanos : Nat
deriving DecidableEq, Repr

/-- Rust `impl NetEncoder for Duration`: 8 bytes seconds then 4 bytes
nanoseconds, big-endian (12 bytes total). -/
def durationEncode (d : Duration) : List Nat :=
  toBeBytes 8 d.secs ++ toBeBytes 4 d.nanos

/-- Rust `impl NetDecoder for Duration`: needs 12 bytes; reads seconds
then nanoseconds. -/
def durationDecode (data : List Nat) : Except NetError (Duration × Nat) :=
  if data.length < 12 then
    .error (.NetCode ("Not enough bytes to decode Duration (need 12, got " ++
      toString data.length ++ ")"))
  else
    .ok (⟨fromBeBytes (data.take 8), fromBeBytes ((data.drop 8).take 4)⟩, 12)

/-- Rust `impl NetEncoder for ()`: zero bytes. -/
def unitEncode (_ : Unit) : List Nat := []

/-- Rust `impl NetDecoder for ()`: consumes nothing. -/
def unitDecode (_ : List Nat) : Except NetError (Unit × Nat) := .ok ((), 0)

/-- Codec for `ClientId` as generated by `#[derive(NetEncode)]` on the
tuple struct `ClientId(u16)` in `src/net/client.rs`: the `u16` field
big-endian. -/
def clientIdEncode (c : ClientId) : List Nat := uintEncode 2 c

/-- Codec for `ClientId` as generated by `#[derive(NetDecode)]`. -/
def clientIdDecode (data : List Nat) : Except NetError (ClientId × Nat) :=
  uintDecode 2 data

/-- Codec for the `ErrorPacket` field of `ErrorPayload`.  Modelled from
the spec (section 6, the code field is a 1-byte variant tag); the
`NetDecoder` impl for `ErrorPacket` is absent from the sources. -/
def errorPacketDecode (data : List Nat) : Except NetError (ErrorPacket × Nat) :=
  match data with
  | [] => .error (.NetCode "Not enough bytes to decode ErrorPacket")
  | b :: _ => .ok (ErrorPacket.fromU8 b, 1)

/-- Codec for the `ErrorPacket` field of `ErrorPayload` (encoding
direction, the variant tag byte).  Modelled from the spec like
`errorPacketDecode`. -/
def errorPacketEncode (e : ErrorPacket) : List Nat := [e.toU8]

/-! ## Derived payloads (`src/net/builtins.rs` with the field rules of
`netcode_derive/src/lib.rs`): fields encoded in declared order and
decoded sequentially, each field consuming from the remainder. -/

/-- Built-in `ConnectionPayload(u8, ClientId, u64)` from
`src/net/builtins.rs`; field `fK` models tuple field `K`. -/
structure ConnectionPayload : Type where
  f0 : Nat
  f1 : ClientId
  f2 : Nat
deriving DecidableEq, Repr

/-- Derived `NetEncoder` for `ConnectionPayload`: concatenation of the
field encodings in order. -/
def ConnectionPayload.encode (c : ConnectionPayload) : List Nat :=
  uintEncode 1 c.f0 ++ clientIdEncode c.f1 ++ uintEncode 8 c.f2

/-- Derived `NetDecoder` for `ConnectionPayload`: sequential field
decoding, each from the remainder at the running offset. -/
def ConnectionPayload.decode (data : List Nat) :
    Except NetError (ConnectionPayload × Nat) :=
  match uintDecode 1 data with
  | .error e => .error e
  | .ok (f0, u0) =>
    match clientIdDecode (data.drop u0) with
    | .error e => .error e
    | .ok (f1, u1) =>
      match uintDecode 8 (data.drop (u0 + u1)) with
      | .error e => .error e
      | .ok (f2, u2) => .ok (⟨f0, f1, f2⟩, u0 + u1 + u2)

/-- Built-in `PingPayload(Duration, bool)` from `src/net/builtins.rs`. -/
structure PingPayload : Type where
  f0 : Duration
  f1 : Bool
deriving DecidableEq, Repr

/-- Derived `NetEncoder` for `PingPayload`. -/
def PingPayload.encode (p : PingPayload) : List Nat :=
  durationEncode p.f0 ++ boolEncode p.f1

/-- Derived `NetDecoder` for `PingPayload`. -/
def PingPayload.decode (data : List Nat) :
    Except NetError (PingPayload × Nat) :=
  match durationDecode data with
  | .error e => .error e
  | .ok (f0, u0) =>
    match boolDecode (data.drop u0) with
    | .error e => .error e
    | .ok (f1, u1) => .ok (⟨f0, f1⟩, u0 + u1)

/-- Built-in `ErrorPayload(ErrorPacket, String)` from
`src/net/builtins.rs`. -/
structure ErrorPayload : Type where
  f0 : ErrorPacket
  f1 : List Nat
deriving DecidableEq, Repr

/-- Derived `NetEncoder` for `ErrorPayload`. -/
def ErrorPayload.encode (e : ErrorPayload) : List Nat :=
  errorPacketEncode e.f0 ++ stringEncode e.f1

/-- Derived `NetDecoder` for `ErrorPayload`. -/
def ErrorPayload.decode (data : List Nat) :
    Except NetError (ErrorPayload × Nat) :=
  match errorPacketDecode data with
  | .error e => .error e
  | .ok (f0, u0) =>
    match stringDecode (data.drop u0) with
    | .error e => .error e
    | .ok (f1, u1) => .ok (⟨f0, f1⟩, u0 + u1)

/-- Built-in `MessagePayload(String)` from `src/net/builtins.rs`. -/
structure MessagePayload : Type where
  f0 : List Nat
deriving DecidableEq, Repr

/-- Derived `NetEncoder` for `MessagePayload`. -/
def MessagePayload.encode (m : MessagePayload) : List Nat :=
  stringEncode m.f0

/-- Derived `NetDecoder` for `MessagePayload`. -/
def MessagePayload.decode (data : List Nat) :
    Except NetError (MessagePayload × Nat) :=
  match stringDecode data with
  | .error e => .error e
  | .ok (f0, u0) => .ok (⟨f0⟩, u0)

/-- The tagged-union rule of `netcode_derive/src/lib.rs` instantiated at
a two-variant union with one field per variant: one byte equal to the
variant's declaration index, then the variant's fields. -/
def sumEncode {α β : Type} (encA : α → List Nat) (encB : β → List Nat) :
    α ⊕ β → List Nat
  | .inl a => 0 :: encA a
  | .inr b => 1 :: encB b

/-- The tagged-union decode rule of `netcode_derive/src/lib.rs` at a
two-variant union: read the tag, dispatch on the declaration index,
unknown tags are a codec error. -/
def sumDecode {α β : Type} (decA : List Nat → Except NetError (α × Nat))
    (decB : List Nat → Except NetError (β × Nat)) (data : List Nat) :
    Except NetError ((α ⊕ β) × Nat) :=
  match data with
  | [] => .error (.NetCode "No data for enum discriminant")
  | t :: rest =>
    if t = 0 then
      match decA rest with
      | .error e => .error e
      | .ok (a, u) => .ok (.inl a, u + 1)
    else if t = 1 then
      match decB rest with
      | .error e => .error e
      | .ok (b, u) => .ok (.inr b, u + 1)
    else .error (.NetCode "Unknown enum variant tag")

namespace packet

/-! ## The packet envelope (`src/net/packet.rs`)

This generation of the envelope has a five-field header: a version
byte, a label byte, the sender (2 bytes big-endian), the sequence
(2 bytes big-endian), then the payload.  `HEADER_SIZE = 6`. -/

/-- Packet labels from `src/net/packet.rs` lines 31-40. -/
inductive PacketLabel : Type
  | Error
  | Acknowledge
  | Connect
  | Disconnect
  | Heartbeat
  | Message
  | Unknown
deriving DecidableEq, Repr

/-- Rust `impl From<PacketLabel> for u8` (the declaration
discriminants `0x00..0x06`). -/
def PacketLabel.toByte : PacketLabel → Nat
  | .Error => 0
  | .Acknowledge => 1
  | .Connect => 2
  | .Disconnect => 3
  | .Heartbeat => 4
  | .Message => 5
  | .Unknown => 6

/-- Rust `impl From<u8> for PacketLabel` from `src/net/packet.rs` lines
48-60: bytes `0x00..0x05` map to the named labels, everything else to
`Unknown`. -/
def PacketLabel.ofByte (b : Nat) : PacketLabel :=
  if b = 0 then .Error
  else if b = 1 then .Acknowledge
  else if b = 2 then .Connect
  else if b = 3 then .Disconnect
  else if b = 4 then .Heartbeat
  else if b = 5 then .Message
  else .Unknown

/-- The packet of `src/net/packet.rs` lines 63-70. -/
structure Packet : Type where
  version : Nat
  label : PacketLabel
  sender : Nat
  sequence : Nat
  payload : List Nat
deriving DecidableEq, Repr

/-- Rust `Packet::CURRENT_VERSION = 0x01`. -/
def Packet.CURRENT_VERSION : Nat := 1

/-- Rust `Packet::new`: current version, zero sequence, empty payload. -/
def Packet.new (packet_type : PacketLabel) (sender : Nat) : Packet :=
  ⟨Packet.CURRENT_VERSION, packet_type, sender, 0, []⟩

/-- The arguments of the `NetError::InvalidPacket` errors raised by
`TryFrom<&[u8]> for Packet` in `src/net/packet.rs`: an `ErrorPacket`
code, an optional expected quantity and the offending quantity. -/
structure InvalidPacket : Type where
  code : ErrorPacket
  expected : Option Nat
  got : Nat
deriving DecidableEq, Repr

/-- Rust `impl From<&Packet> for Vec<u8>` from `src/net/packet.rs` lines
137-147: version byte at offset 0, label byte at offset 1, sender at
2..4 big-endian, sequence at 4..6 big-endian, then the payload. -/
def Packet.toBytes (p : Packet) : List Nat :=
  p.version :: PacketLabel.toByte p.label ::
    (toBeBytes 2 p.sender ++ toBeBytes 2 p.sequence ++ p.payload)

/-- Rust `impl TryFrom<&[u8]> for Packet` from `src/net/packet.rs` lines
149-194: rejects inputs shorter than `HEADER_SIZE = 6`, then a wrong
version byte, then an unknown label byte; the remainder after the
6-byte header is the payload. -/
def Packet.tryFrom (bytes : List Nat) : Except InvalidPacket Packet :=
  if bytes.length < 6 then
    .error ⟨.InvalidPacketSize, some 6, bytes.length⟩
  else
    let version := nthD bytes 0 0
    if version ≠ Packet.CURRENT_VERSION then
      .error ⟨.InvalidPacketVersion, some Packet.CURRENT_VERSION, version⟩
    else
      let lbyte := nthD bytes 1 0
      if PacketLabel.ofByte lbyte = .Unknown then
        .error ⟨.InvalidPacketLabel, none, lbyte⟩
      else
        .ok ⟨version, PacketLabel.ofByte lbyte,
          fromBeBytes ((bytes.drop 2).take 2),
          fromBeBytes ((bytes.drop 4).take 2),
          bytes.drop 6⟩

end packet

/-! ## Association-list model of `HashMap<ClientAddr, V>`

Keys are compared with `ClientAddr.beq` (the source's `Eq`/`Hash`).
The maps built by the storage never hold two entries with equal keys. -/

/-- Lookup (`HashMap::get`). -/
def amap.get {V : Type} : List (ClientAddr × V) → ClientAddr → Option V
  | [], _ => none
  | p :: rest, k => if ClientAddr.beq p.1 k then some p.2 else amap.get rest k

/-- Removal (`HashMap::remove`, dropping the entry). -/
def amap.erase {V : Type} (l : List (ClientAddr × V)) (k : ClientAddr) :
    List (ClientAddr × V) :=
  l.filter (fun p => !ClientAddr.beq p.1 k)

/-- Insertion or replacement (`HashMap::insert`). -/
def amap.insert {V : Type} (l : List (ClientAddr × V)) (k : ClientAddr)
    (v : V) : List (ClientAddr × V) :=
  (k, v) :: amap.erase l k

/-- Membership (`HashMap::contains_key`). -/
def amap.contains {V : Type} (l : List (ClientAddr × V)) (k : ClientAddr) :
    Bool :=
  (amap.get l k).isSome

/-- Conditional retention (`HashMap::retain`). -/
def amap.retainKV {V : Type} (l : List (ClientAddr × V))
    (f : ClientAddr → V → Bool) : List (ClientAddr × V) :=
  l.filter (fun p => f p.1 p.2)

/-! ## The sparse set (`src/utils/sset.rs`) -/

/-- A dense-array entry, `Entry<T>` from `src/utils/sset.rs`. -/
structure Entry (T : Type) : Type where
  key : Nat
  value : T
deriving DecidableEq, Repr

/-- The sparse set of `src/utils/sset.rs`: a dense vector of entries and
a sparse vector mapping keys to dense indices. -/
structure SparseSet (T : Type) : Type where
  dense : List (Entry T)
  sparse : List Nat
  max_capacity : Nat
  invalid_key : Nat
deriving DecidableEq, Repr

/-- Rust `SparseSet::new`: empty dense vector, sparse vector filled with
the invalid key (the source asserts `capacity <= invalid_key`). -/
def SparseSet.new (T : Type) (capacity invalid_key : Nat) : SparseSet T :=
  ⟨[], List.replicate capacity invalid_key, capacity, invalid_key⟩

/-- Rust `SparseSet::get_dense_idx`: out-of-range keys have no index;
otherwise the sparse slot must lie inside the dense vector. -/
def SparseSet.get_dense_idx {T : Type} (s : SparseSet T) (key : Nat) :
    Option Nat :=
  if key ≥ s.max_capacity then none
  else if nthD s.sparse key s.invalid_key < s.dense.length then
    some (nthD s.sparse key s.invalid_key)
  else none

/-- Rust `SparseSet::has_key`. -/
def SparseSet.has_key {T : Type} (s : SparseSet T) (key : Nat) : Bool :=
  (s.get_dense_idx key).isSome

/-- Rust `SparseSet::length` (the dense count). -/
def SparseSet.length {T : Type} (s : SparseSet T) : Nat := s.dense.length

/-- Rust `SparseSet::get`. -/
def SparseSet.get {T : Type} (s : SparseSet T) (key : Nat) : Option T :=
  (s.get_dense_idx key).bind (fun d => (nth s.dense d).map Entry.value)

/-- Writing through `SparseSet::get_mut` (`*s.get_mut(key) = v`): the
dense value behind the key is replaced, the key layout is untouched. -/
def SparseSet.set_value {T : Type} (s : SparseSet T) (key : Nat) (v : T) :
    SparseSet T :=
  match s.get_dense_idx key with
  | some d =>
    match nth s.dense d with
    | some e => { s with dense := setNth s.dense d ⟨e.key, v⟩ }
    | none => s
  | none => s

/-- Rust `SparseSet::insert`: replace the value when the key is present,
otherwise point the sparse slot at the end of the dense vector and push
the new entry.  The source asserts `key < max_capacity`; the
out-of-bounds case (a panic in Rust) is modelled as a no-op and is
unreachable in the states considered here. -/
def SparseSet.insert {T : Type} (s : SparseSet T) (key : Nat) (v : T) :
    SparseSet T :=
  if key < s.max_capacity then
    if (s.get_dense_idx key).isSome then s.set_value key v
    else
      { s with sparse := setNth s.sparse key s.dense.length,
               dense := s.dense ++ [⟨key, v⟩] }
  else s

/-- Rust `SparseSet::remove`: `Vec::swap_remove` on the dense vector
(the last entry moves into the removed slot), fix the sparse slot of
the moved entry, then invalidate the removed key's slot. -/
def SparseSet.remove {T : Type} [Inhabited T] (s : SparseSet T) (key : Nat) :
    SparseSet T × Option T :=
  if s.has_key key then
    let d := nthD s.sparse key s.invalid_key
    let entry := nthD s.dense d ⟨s.invalid_key, default⟩
    let last := s.dense.length - 1
    let dense1 := (setNth s.dense d (nthD s.dense last ⟨s.invalid_key, default⟩)).dropLast
    let sparse1 :=
      if d < dense1.length then
        setNth s.sparse (nthD dense1 d ⟨s.invalid_key, default⟩).key d
      else s.sparse
    ({ s with dense := dense1, sparse := setNth sparse1 key s.invalid_key },
      some entry.value)
  else (s, none)

/-- Rust `SparseSet::iter`: the dense entries in order. -/
def SparseSet.iter {T : Type} (s : SparseSet T) : List (Nat × T) :=
  s.dense.map (fun e => (e.key, e.value))

/-! ## The client storage (`src/net/storage.rs`) -/

/-- Error types of the client storage, from `src/net/storage.rs` lines
13-19. -/
inductive StorageError : Type
  | OffsetOverflow
  | InvalidClientIdCollision
  | AtCapacity
  | ClientExists
  | TimedOut
deriving DecidableEq, Repr

/-- Rust `Display for StorageError` from `src/net/storage.rs`. -/
def StorageError.toMsg : StorageError → String
  | .OffsetOverflow => "offset overflow"
  | .InvalidClientIdCollision => "invalid client ID collision"
  | .AtCapacity => "capacity reached"
  | .ClientExists => "client already exists"
  | .TimedOut => "client timed out"

/-- Rust `ClientStorage<ClientAddr>` from `src/net/storage.rs` lines
34-49.  `pool` models the Rust `Vec` as a stack whose head is the
vector's end (`push` conses, `pop` and `last` use the head). -/
structure ClientStorage : Type where
  id_offset : Nat
  max_clients : Nat
  invalid_key : Nat
  addr_id : List (ClientAddr × Nat)
  addr : SparseSet ClientAddr
  sequence : SparseSet Nat
  ping : SparseSet Nat
  archive : List (ClientAddr × (Nat × Nat))
  errors : List (ClientAddr × (Nat × Nat))
  blacklist : List (ClientAddr × Nat)
  pool : List Nat
deriving DecidableEq, Repr

/-- Rust `ClientStorage::new`: fails when `id_offset + max_clients`
overflows `u16` or when the invalid key lies inside
`[id_offset, id_offset + max_clients)`. -/
def ClientStorage.new (id_offset max_clients invalid_key : Nat) :
    Except StorageError ClientStorage :=
  if id_offset + max_clients > 65535 then .error .OffsetOverflow
  else if invalid_key ≥ id_offset ∧ invalid_key < id_offset + max_clients then
    .error .InvalidClientIdCollision
  else
    .ok { id_offset := id_offset, max_clients := max_clients,
          invalid_key := invalid_key, addr_id := [],
          addr := SparseSet.new ClientAddr max_clients invalid_key,
          sequence := SparseSet.new Nat max_clients invalid_key,
          ping := SparseSet.new Nat max_clients invalid_key,
          archive := [], errors := [], blacklist := [], pool := [] }

/-- Rust `ClientStorage::map_internal` (external id minus offset). -/
def ClientStorage.map_internal (s : ClientStorage) (id : Nat) : Nat :=
  id - s.id_offset

/-- Rust `ClientStorage::map_external` (internal index plus offset; the
source asserts the index stays within the id space). -/
def ClientStorage.map_external (s : ClientStorage) (i : Nat) : Nat :=
  i + s.id_offset

/-- Rust `ClientStorage::is_blacklisted`. -/
def ClientStorage.is_blacklisted (s : ClientStorage) (addr : ClientAddr) :
    Bool :=
  amap.contains s.blacklist addr

/-- Rust `ClientStorage::get_sequence`. -/
def ClientStorage.get_sequence (s : ClientStorage) (client_id : Nat) :
    Option Nat :=
  s.sequence.get (s.map_internal client_id)

/-- Rust `ClientStorage::get_ping`. -/
def ClientStorage.get_ping (s : ClientStorage) (client_id : Nat) :
    Option Nat :=
  s.ping.get (s.map_internal client_id)

/-- Writing through `ClientStorage::get_ping_mut`
(`*last = Instant::now()`). -/
def ClientStorage.set_ping (s : ClientStorage) (client_id now : Nat) :
    ClientStorage :=
  { s with ping := s.ping.set_value (s.map_internal client_id) now }

/-- Rust `ClientStorage::get_errors` (the count component). -/
def ClientStorage.get_errors (s : ClientStorage) (addr : ClientAddr) :
    Option Nat :=
  (amap.get s.errors addr).map Prod.fst

/-- Rust `ClientStorage::client_err`: bump the count and refresh the
timestamp, creating the entry at count 1. -/
def ClientStorage.client_err (s : ClientStorage) (now : Nat)
    (addr : ClientAddr) : ClientStorage :=
  match amap.get s.errors addr with
  | some cts => { s with errors := amap.insert s.errors addr (cts.1 + 1, now) }
  | none => { s with errors := amap.insert s.errors addr (1, now) }

/-- Rust `ClientStorage::get_addr`. -/
def ClientStorage.get_addr (s : ClientStorage) (client_id : Nat) :
    Option ClientAddr :=
  s.addr.get (s.map_internal client_id)

/-- Rust `ClientStorage::get_id`. -/
def ClientStorage.get_id (s : ClientStorage) (addr : ClientAddr) :
    Option Nat :=
  (amap.get s.addr_id addr).map s.map_external

/-- Rust `ClientStorage::remove`: drop the live entry from all three
sparse sets and from the address map, returning the stored address. -/
def ClientStorage.remove (s : ClientStorage) (client_id : Nat) :
    ClientStorage × Option ClientAddr :=
  match s.addr.remove (s.map_internal client_id) with
  | (a, some addr) =>
    ({ s with addr := a,
              addr_id := amap.erase s.addr_id addr,
              sequence := (s.sequence.remove (s.map_internal client_id)).1,
              ping := (s.ping.remove (s.map_internal client_id)).1 },
      some addr)
  | (_, none) => (s, none)

/-- Rust `ClientStorage::insert`: unconditional upsert of the live maps
with sequence 0 and ping now. -/
def ClientStorage.insert (s : ClientStorage) (now client_id : Nat)
    (addr : ClientAddr) : ClientStorage :=
  { s with addr_id := amap.insert s.addr_id addr (s.map_internal client_id),
           addr := s.addr.insert (s.map_internal client_id) addr,
           sequence := s.sequence.insert (s.map_internal client_id) 0,
           ping := s.ping.insert (s.map_internal client_id) now }

/-- Rust `ClientStorage::archive_client`: remove the live entry and
remember its address with its internal index and the removal instant. -/
def ClientStorage.archive_client (s : ClientStorage) (now client_id : Nat) :
    ClientStorage :=
  match s.remove client_id with
  | (s1, some addr) =>
    { s1 with archive := amap.insert s1.archive addr (s1.map_internal client_id, now) }
  | (s1, none) => s1

/-- Rust `ClientStorage::blacklist_client`: remove the live (or
archived) entry, blacklist the address, and return the internal index
to the pool. -/
def ClientStorage.blacklist_client (s : ClientStorage) (now client_id : Nat)
    (addr : ClientAddr) : ClientStorage :=
  match s.remove client_id with
  | (s1, some a) =>
    { s1 with blacklist := amap.insert s1.blacklist a now,
              pool := s1.map_internal client_id :: s1.pool }
  | (s1, none) =>
    if (amap.get s1.archive addr).isSome then
      { s1 with archive := amap.erase s1.archive addr,
                blacklist := amap.insert s1.blacklist addr now,
                pool := s1.map_internal client_id :: s1.pool }
    else s1

/-- Rust `ClientStorage::blacklist_client_addr`: resolve the address to
a live or archived internal index if any, then blacklist. -/
def ClientStorage.blacklist_client_addr (s : ClientStorage) (now : Nat)
    (addr : ClientAddr) : ClientStorage :=
  match amap.get s.addr_id addr with
  | some i => s.blacklist_client now (s.map_external i) addr
  | none =>
    match amap.get s.archive addr with
    | some p => s.blacklist_client now (s.map_external p.1) addr
    | none => { s with blacklist := amap.insert s.blacklist addr now }

/-- Rust `ClientStorage::expired_clients`: ids whose ping instant is
strictly older than the timeout. -/
def ClientStorage.expired_clients (s : ClientStorage) (now timeout_ms : Nat) :
    List Nat :=
  (s.ping.iter.filter (fun p => now - p.2 > timeout_ms)).map
    (fun p => s.map_external p.1)

/-- Index assignment step of `ClientStorage::add` from
`src/net/storage.rs` lines 281-287: take the internal index from the
archive entry for the address, else pop the pool, else use the dense
length. -/
def ClientStorage.add_pick (s : ClientStorage) (addr : ClientAddr) :
    ClientStorage × Nat :=
  match amap.get s.archive addr with
  | some p => ({ s with archive := amap.erase s.archive addr }, p.1)
  | none =>
    match s.pool with
    | i :: rest => ({ s with pool := rest }, i)
    | [] => (s, s.addr.length)

/-- Capacity check and insertion step of `ClientStorage::add` from
`src/net/storage.rs` lines 289-295. -/
def ClientStorage.add_finish (pr : ClientStorage × Nat) (now : Nat)
    (addr : ClientAddr) : ClientStorage × Except StorageError Nat :=
  if pr.2 ≥ pr.1.max_clients ∧ pr.1.pool = [] then (pr.1, .error .AtCapacity)
  else
    (pr.1.insert now (pr.1.map_external pr.2) addr,
      .ok (pr.1.map_external pr.2))

/-- Rust `ClientStorage::add` from `src/net/storage.rs` lines 266-296
(without the `shared_ip` feature): reject blacklisted addresses, then
addresses that are live or archived, then assign an index and insert
through `add_pick` and `add_finish`. -/
def ClientStorage.add (s : ClientStorage) (now : Nat) (addr : ClientAddr) :
    ClientStorage × Except StorageError Nat :=
  if s.is_blacklisted addr then (s, .error .TimedOut)
  else if amap.contains s.addr_id addr || amap.contains s.archive addr then
    (s, .error .ClientExists)
  else ClientStorage.add_finish (s.add_pick addr) now addr

/-- Rust `ClientStorage::addr_iter`. -/
def ClientStorage.addr_iter (s : ClientStorage) : List (Nat × ClientAddr) :=
  s.addr.iter.map (fun p => (s.map_external p.1, p.2))

/-- Rust `ClientStorage::next_id`: the pool's most recent index if any,
else the dense length, mapped to an external id. -/
def ClientStorage.next_id (s : ClientStorage) : Nat :=
  match s.pool with
  | i :: _ => s.map_external i
  | [] => s.map_external s.addr.length

/-- Rust `ClientStorage::task_drain_archive`: retain young entries, push
the expired internal indices back to the pool. -/
def ClientStorage.task_drain_archive (s : ClientStorage) (now drain_ms : Nat) :
    ClientStorage :=
  let expired := s.archive.filter (fun p => !(now - p.2.2 < drain_ms))
  { s with archive := s.archive.filter (fun p => now - p.2.2 < drain_ms),
           pool := (expired.map (fun p => p.2.1)).reverse ++ s.pool }

/-- Rust `ClientStorage::task_drain_blacklist`: retain young entries. -/
def ClientStorage.task_drain_blacklist (s : ClientStorage)
    (now timeout_ms : Nat) : ClientStorage :=
  { s with blacklist := s.blacklist.filter (fun p => now - p.2 < timeout_ms) }

/-- Rust `ClientStorage::task_reset_errors`: retain young entries. -/
def ClientStorage.task_reset_errors (s : ClientStorage)
    (now errors_ms : Nat) : ClientStorage :=
  { s with errors := s.errors.filter (fun p => now - p.2.2 < errors_ms) }

/-! ## The socket (`src/net/socket.rs`)

The packet record and label enumeration of this generation are used by
`src/net/socket.rs` but their declaring module is absent from the
sources; both are modelled from the spec (sections 3 and 4.B), whose
shapes the socket's uses pin exactly. -/

/-- Packet labels of the socket generation.  Modelled from the spec
(section 3): `Error`, `Acknowledge`, `Connect`, `Disconnect`, `Ping`,
`Message`, and `Extension` for unknown bytes; `src/net/socket.rs`
matches on `Connect`, `Disconnect`, `Ping`, `Error` and a catch-all. -/
inductive PacketLabel : Type
  | Error
  | Acknowledge
  | Connect
  | Disconnect
  | Ping
  | Message
  | Extension (b : Nat)
deriving DecidableEq, Repr

/-- The packet of the socket generation.  Modelled from the spec
(section 3): label, source id, sequence, payload; the accessors and
mutators used by `src/net/socket.rs` are field reads and updates. -/
structure Packet : Type where
  label : PacketLabel
  source : ClientId
  sequence : Nat
  payload : List Nat
deriving DecidableEq, Repr

/-- The protocol version constant carried in `ConnectionPayload`
(`Packet::CURRENT_VERSION = 1`). -/
def Packet.CURRENT_VERSION : Nat := 1

/-- Packet construction (`Packet::new`): zero sequence, empty payload. -/
def Packet.new (label : PacketLabel) (source : ClientId) : Packet :=
  ⟨label, source, 0, []⟩

/-- Rust `Deliverable` from `src/net/mod.rs`: a destination id and the
packet to send (the source's field `to` is a reserved word and becomes
`dest`). -/
structure Deliverable : Type where
  dest : ClientId
  packet : Packet
deriving DecidableEq, Repr

/-- The unified socket of `src/net/socket.rs` lines 55-62.  `remote`
models the `SocketType` variant (`Remote` versus `Local`); `sent` is
the log of datagrams handed to the transport's `send` (the transport
itself always accepts them in this model). -/
structure Socket : Type where
  id : ClientId
  server_addr : Option ClientAddr
  remote : Bool
  clients : ClientStorage
  sent : List (ClientAddr × Packet)
deriving DecidableEq, Repr

/-- Rust `Socket::is_server` (no server address configured). -/
def Socket.is_server (st : Socket) : Bool := st.server_addr.isNone

/-- Rust `Socket::is_remote` (the transport variant). -/
def Socket.is_remote (st : Socket) : Bool := st.remote

/-- Message for `StorageError::AtCapacity` in `Socket::add_client`. -/
def msgAtCapacity : List Nat :=
  strBytes "Server is at maximum capacity for clients. Please try again later."

/-- Message for `StorageError::ClientExists` in `Socket::add_client`. -/
def msgOneConnection : List Nat :=
  strBytes "Only one connection per IP allowed. Please try again later."

/-- Message for `StorageError::TimedOut` in `Socket::add_client`. -/
def msgBlacklistedAddr : List Nat :=
  strBytes "Your address is currently blacklisted. Please try again later."

/-- Wrapping increment of a client's stored sequence number
(`get_sequence_mut` followed by `*seq = seq.wrapping_add(1)`), also
returning the new value that is stamped into the outgoing packet. -/
def ClientStorage.bump_sequence (s : ClientStorage) (client_id : Nat) :
    Option (ClientStorage × Nat) :=
  match s.get_sequence client_id with
  | some seq =>
    let v := (seq + 1) % 65536
    some ({ s with sequence := s.sequence.set_value (s.map_internal client_id) v }, v)
  | none => none

/-- Rust `Socket::send_err` from `src/net/socket.rs` lines 592-608:
build an `Error` packet whose payload is the error code byte followed
by the message bytes, stamp a sequence if the destination is a known
client, and hand it directly to the transport. -/
def Socket.send_err (st : Socket) (dest : ClientAddr) (error : ErrorPacket)
    (msg : List Nat) : Socket :=
  let packet := { Packet.new .Error st.id with payload := ErrorPacket.toU8 error :: msg }
  match st.clients.get_id dest with
  | some client_id =>
    match st.clients.bump_sequence client_id with
    | some cv =>
      { st with clients := cv.1,
                sent := st.sent ++ [(dest, { packet with sequence := cv.2 })] }
    | none => { st with sent := st.sent ++ [(dest, packet)] }
  | none => { st with sent := st.sent ++ [(dest, packet)] }

/-- Rust `Socket::send` from `src/net/socket.rs` lines 618-649: suppress
self-sends (except `Connect`), wrapping-increment and stamp the stored
sequence unless the packet is a `Connect` with an unassigned source,
then route to the destination's address, else the server address, else
the local server, else fail `NotConnected`. -/
def Socket.send (st : Socket) (d : Deliverable) :
    Socket × Except NetError Unit :=
  let dest := d.dest
  let packet := d.packet
  if st.id = dest ∧ packet.label ≠ .Connect then (st, .error .NothingToDo)
  else
    let stamped : Except NetError (ClientStorage × Packet) :=
      if packet.source ≠ ClientId.INVALID ∨ packet.label ≠ .Connect then
        match st.clients.bump_sequence dest with
        | some cv => .ok (cv.1, { packet with sequence := cv.2 })
        | none => .error (.NotConnected (.Local dest))
      else .ok (st.clients, packet)
    match stamped with
    | .error e => (st, .error e)
    | .ok (c, packet) =>
      let st1 := { st with clients := c }
      match st1.clients.get_addr dest with
      | some a => ({ st1 with sent := st1.sent ++ [(a, packet)] }, .ok ())
      | none =>
        match st1.server_addr with
        | some a => ({ st1 with sent := st1.sent ++ [(a, packet)] }, .ok ())
        | none =>
          if ¬st1.remote then
            ({ st1 with sent := st1.sent ++ [(.Local 0, packet)] }, .ok ())
          else (st1, .error (.NotConnected (.Local dest)))

/-- Rust `Socket::add_client` from `src/net/socket.rs` lines 270-290:
map the storage errors to an error packet sent to the address, then
swallow the admission as `NothingToDo`. -/
def Socket.add_client (st : Socket) (now : Nat) (client : ClientAddr) :
    Socket × Except NetError ClientId :=
  match st.clients.add now client with
  | (c, .ok client_id) => ({ st with clients := c }, .ok client_id)
  | (c, .error .AtCapacity) =>
    (({ st with clients := c }).send_err client .TooManyConnections msgAtCapacity,
      .error .NothingToDo)
  | (c, .error .ClientExists) =>
    (({ st with clients := c }).send_err client .TooManyConnections msgOneConnection,
      .error .NothingToDo)
  | (c, .error .TimedOut) =>
    (({ st with clients := c }).send_err client .Blacklisted msgBlacklistedAddr,
      .error .NothingToDo)
  | (c, .error e) => ({ st with clients := c }, .error (.StorageError e.toMsg))

/-- Rust `Socket::queue_removal`. -/
def Socket.queue_removal (st : Socket) (now client_id : Nat) : Socket :=
  { st with clients := st.clients.archive_client now client_id }

/-- Rust `Socket::disconnect_client` from `src/net/socket.rs` lines
570-583: `NothingToDo` on non-servers; optionally notify with a
`Disconnect` packet (whose send errors propagate before the removal);
then queue the id for archival. -/
def Socket.disconnect_client (st : Socket) (now client_id : Nat)
    (notify : Bool) : Socket × Except NetError Unit :=
  if ¬st.is_server then (st, .error .NothingToDo)
  else if notify then
    match st.send ⟨client_id, Packet.new .Disconnect st.id⟩ with
    | (st1, .error e) => (st1, .error e)
    | (st1, .ok _) => (st1.queue_removal now client_id, .ok ())
  else (st.queue_removal now client_id, .ok ())

/-- Rust `Socket::handle_invalid_packet_err` from `src/net/socket.rs`
lines 298-332: only `InvalidPacket` errors are charged; no-op on
clients; `NothingToDo` when the address is already blacklisted; charge
the address, and past 5 errors disconnect any live id, blacklist the
address and demote the error to `NothingToDo`. -/
def Socket.handle_invalid_packet_err (st : Socket) (now : Nat) :
    NetError → Socket × Except NetError Unit
  | .InvalidPacket addr _ _ =>
    if ¬st.is_server then (st, .ok ())
    else if st.clients.is_blacklisted addr then (st, .error .NothingToDo)
    else
      match (st.clients.client_err now addr).get_errors addr with
      | some n =>
        if n > 5 then
          match (st.clients.client_err now addr).get_id addr with
          | some client_id =>
            let st2 := (({ st with clients := st.clients.client_err now addr } : Socket).disconnect_client
              now client_id false).1
            ({ st2 with clients := st2.clients.blacklist_client_addr now addr },
              .error .NothingToDo)
          | none =>
            ({ st with clients :=
                (st.clients.client_err now addr).blacklist_client_addr now addr },
              .error .NothingToDo)
        else ({ st with clients := st.clients.client_err now addr }, .ok ())
      | none => ({ st with clients := st.clients.client_err now addr }, .ok ())
  | _ => (st, .ok ())

/-- Rust `Socket::validate_invalid_client` from `src/net/socket.rs`
lines 340-362: a `Connect` admits the sender (remote role) or a fresh
local id (local role) and stamps the new id into the packet; any other
label resolves a cached id or fails `NotConnected`. -/
def Socket.validate_invalid_client (st : Socket) (now : Nat)
    (sender : ClientAddr) (packet : Packet) : Socket × Except NetError Packet :=
  if packet.label = .Connect then
    match
      (if st.is_remote then st.add_client now sender
       else st.add_client now (.Local (st.clients.next_id))) with
    | (st1, .ok cache_id) => (st1, .ok { packet with source := cache_id })
    | (st1, .error e) => (st1, .error e)
  else
    match st.clients.get_id sender with
    | some id => (st, .ok { packet with source := id })
    | none => (st, .error (.NotConnected sender))

/-- Rust `Socket::validate_client_lookup` from `src/net/socket.rs` lines
371-407: the sender address must resolve to the claimed id, or the
claimed id to the sender address; mismatches are `InvalidPacket` of
kind `Source`, a double miss is `NotConnected`. -/
def Socket.validate_client_lookup (st : Socket) (sender : ClientAddr)
    (client_id : Nat) : Except NetError Unit :=
  match st.clients.get_id sender with
  | some cached_id =>
    if client_id = cached_id then .ok ()
    else .error (.InvalidPacket sender .Source "Client ID mismatch")
  | none =>
    match st.clients.get_addr client_id with
    | some cached =>
      if ClientAddr.beq sender cached then .ok ()
      else .error (.InvalidPacket sender .Source "Client address mismatch")
    | none => .error (.NotConnected sender)

/-- Rust `Socket::validate` from `src/net/socket.rs` lines 418-437:
blacklisted senders short-circuit to `NothingToDo`; an unassigned
source runs admission; otherwise servers cross-check the claimed id. -/
def Socket.validate (st : Socket) (now : Nat) (sender : ClientAddr)
    (packet : Packet) : Socket × Except NetError Packet :=
  if st.clients.is_blacklisted sender then (st, .error .NothingToDo)
  else if packet.source = ClientId.INVALID then
    st.validate_invalid_client now sender packet
  else if st.is_server then
    match st.validate_client_lookup sender packet.source with
    | .ok _ => (st, .ok packet)
    | .error e => (st, .error e)
  else (st, .ok packet)

/-- Rust `Socket::packet_action_connection` from `src/net/socket.rs`
lines 440-475: decode the `ConnectionPayload`; wrong version is an
`InvalidPacket` of kind `Version`; servers reply with a `Connect`
carrying `ConnectionPayload(CURRENT_VERSION, source, 5000)`; clients
adopt the assigned id and insert the server. -/
def Socket.packet_action_connection (st : Socket) (now : Nat)
    (packet : Packet) (addr : ClientAddr) : Socket × Except NetError Unit :=
  match ConnectionPayload.decode packet.payload with
  | .error _ =>
    (st, .error (.InvalidPacket addr .Payload "Could not parse connection payload"))
  | .ok cp =>
    if cp.1.f0 ≠ Packet.CURRENT_VERSION then
      (st, .error (.InvalidPacket addr .Version "packet version mismatch"))
    else if st.is_server then
      let payload := ConnectionPayload.encode ⟨Packet.CURRENT_VERSION, packet.source, 5000⟩
      st.send ⟨packet.source, { Packet.new .Connect st.id with payload := payload }⟩
    else
      ({ st with id := cp.1.f1,
                 clients := st.clients.insert now packet.source addr }, .ok ())

/-- Rust `Socket::packet_action_disconnection`: queue the source for
archival. -/
def Socket.packet_action_disconnection (st : Socket) (now : Nat)
    (packet : Packet) : Socket × Except NetError Unit :=
  (st.queue_removal now packet.source, .ok ())

/-- Rust `Socket::packet_action_ping` from `src/net/socket.rs` lines
486-507: decode the `PingPayload`, refresh the source's ping instant,
and when `respond` is set reply with `PingPayload(ts, false)`. -/
def Socket.packet_action_ping (st : Socket) (now : Nat) (packet : Packet)
    (addr : ClientAddr) : Socket × Except NetError Unit :=
  match PingPayload.decode packet.payload with
  | .error _ =>
    (st, .error (.InvalidPacket addr .Payload "Could not parse ping payload"))
  | .ok pp =>
    let st1 :=
      if (st.clients.get_ping packet.source).isSome then
        { st with clients := st.clients.set_ping packet.source now }
      else st
    if pp.1.f1 then
      st1.send ⟨packet.source,
        { Packet.new .Ping st1.id with payload := PingPayload.encode ⟨pp.1.f0, false⟩ }⟩
    else (st1, .ok ())

/-- Rust `Socket::packet_actions_errors` from `src/net/socket.rs` lines
510-541: servers ignore inbound errors; clients decode the payload and
treat `TooManyConnections` and `Blacklisted` as fatal socket errors. -/
def Socket.packet_actions_errors (st : Socket) (packet : Packet)
    (addr : ClientAddr) : Socket × Except NetError Unit :=
  if st.is_server then (st, .ok ())
  else
    match ErrorPayload.decode packet.payload with
    | .error _ =>
      (st, .error (.InvalidPacket addr .Payload "Could not parse error payload"))
    | .ok ep =>
      match ep.1.f0 with
      | .TooManyConnections =>
        (st, .error (.SocketError "Received TooManyConnections error from server."))
      | .Blacklisted =>
        (st, .error (.SocketError "Received Blacklisted error from server."))
      | _ => (st, .ok ())

/-- Rust `Socket::packet_actions` from `src/net/socket.rs` lines
544-560: label dispatch, then any resulting error is charged through
`handle_invalid_packet_err` before being propagated. -/
def Socket.packet_actions (st : Socket) (now : Nat) (packet : Packet)
    (addr : ClientAddr) : Socket × Except NetError Unit :=
  let r :=
    match packet.label with
    | .Connect => st.packet_action_connection now packet addr
    | .Disconnect => st.packet_action_disconnection now packet
    | .Ping => st.packet_action_ping now packet addr
    | .Error => st.packet_actions_errors packet addr
    | _ => (st, .ok ())
  match r with
  | (st1, .ok _) => (st1, .ok ())
  | (st1, .error err) =>
    match st1.handle_invalid_packet_err now err with
    | (st2, .error e2) => (st2, .error e2)
    | (st2, .ok _) => (st2, .error err)

/-- The receive pipeline of `Socket::try_recv` / `Socket::recv` from
`src/net/socket.rs` lines 663-711 on an arriving datagram: validate
(charging failures), run the packet actions, and return the packet. -/
def Socket.recv_process (st : Socket) (now : Nat) (client : ClientAddr)
    (packet : Packet) : Socket × Except NetError (Option Packet) :=
  match st.validate now client packet with
  | (st1, .error why) =>
    match st1.handle_invalid_packet_err now why with
    | (st2, .error e2) => (st2, .error e2)
    | (st2, .ok _) => (st2, .error why)
  | (st1, .ok packet1) =>
    match st1.packet_actions now packet1 client with
    | (st2, .error e) => (st2, .error e)
    | (st2, .ok _) => (st2, .ok (some packet1))

/-- Rust `Socket::new` in server role (`opts.is_server()`): id 0,
offset 1, storage over `max_clients` with the invalid sentinel; the
scheduler's default tasks are modelled as explicit steps (`SStep`). -/
def Socket.new_server (max_clients : Nat) (remote : Bool) :
    Except NetError Socket :=
  match ClientStorage.new 1 max_clients ClientId.INVALID with
  | .error why => .error (.StorageError why.toMsg)
  | .ok clients =>
    .ok { id := 0, server_addr := none, remote := remote,
          clients := clients, sent := [] }

/-- Rust `Socket::new` in client role: invalid id, offset 0, the server
address set. -/
def Socket.new_client (max_clients : Nat) (srv : ClientAddr) (remote : Bool) :
    Except NetError Socket :=
  match ClientStorage.new 0 max_clients ClientId.INVALID with
  | .error why => .error (.StorageError why.toMsg)
  | .ok clients =>
    .ok { id := ClientId.INVALID, server_addr := some srv, remote := remote,
          clients := clients, sent := [] }

/-- Number of live client records (the dense length of the address
sparse set). -/
def liveCount (st : Socket) : Nat := st.clients.addr.length

/-- One server-side state transition: an arriving datagram, an outgoing
send, an explicit disconnect, or one of the default maintenance tasks
registered by `Socket::new` (archive, blacklist and error-reset
drains; the expired sweep is a sequence of `disconnect` steps). -/
inductive SStep : Socket → Socket → Prop where
  | recv (st : Socket) (now : Nat) (addr : ClientAddr) (pkt : Packet) :
      SStep st (st.recv_process now addr pkt).1
  | sendStep (st : Socket) (d : Deliverable) : SStep st (st.send d).1
  | disconnect (st : Socket) (now client_id : Nat) (notify : Bool) :
      SStep st (st.disconnect_client now client_id notify).1
  | drainArchive (st : Socket) (now ms : Nat) :
      SStep st { st with clients := st.clients.task_drain_archive now ms }
  | drainBlacklist (st : Socket) (now ms : Nat) :
      SStep st { st with clients := st.clients.task_drain_blacklist now ms }
  | resetErrors (st : Socket) (now ms : Nat) :
      SStep st { st with clients := st.clients.task_reset_errors now ms }

/-- States reachable from an initial socket through `SStep`. -/
inductive SReach (st0 : Socket) : Socket → Prop where
  | refl : SReach st0 st0
  | step {st1 st2 : Socket} : SReach st0 st1 → SStep st1 st2 → SReach st0 st2

/-- Well-formedness of a sparse set: the sparse vector spans the
capacity, the capacity stays below the invalid key, every dense entry
is pointed back to by its key's sparse slot, and every sparse slot is
either invalid or points at the entry carrying its key. -/
def SSWF {T : Type} (s : SparseSet T) : Prop :=
  s.sparse.length = s.max_capacity ∧
  s.max_capacity < s.invalid_key ∧
  (∀ i e, nth s.dense i = some e →
    e.key < s.max_capacity ∧ nthD s.sparse e.key s.invalid_key = i) ∧
  (∀ k, k < s.max_capacity →
    nthD s.sparse k s.invalid_key = s.invalid_key ∨
    ∃ e, nth s.dense (nthD s.sparse k s.invalid_key) = some e ∧ e.key = k)

/-- Storage invariant used for the admission-cap proof: the address
sparse set is well-formed, and both its capacity and the storage's
`max_clients` equal `N`. -/
def SInv (N : Nat) (c : ClientStorage) : Prop :=
  SSWF c.addr ∧ c.addr.max_capacity = N ∧ c.max_clients = N

/-- Server invariant: server role, remote transport, storage
invariant at capacity `N`. -/
def ServerInv (N : Nat) (st : Socket) : Prop :=
  st.server_addr = none ∧ st.remote = true ∧ SInv N st.clients

/-- The error packet that `Socket::send_err` emits for an at-capacity
`Connect` when the sender is unknown to the storage: label `Error`,
the socket's own id as source, sequence 0, payload
`TooManyConnections` byte then the message. -/
def capacityErrPacket (id : ClientId) : Packet :=
  ⟨.Error, id, 0, ErrorPacket.toU8 .TooManyConnections :: msgAtCapacity⟩



/-- Whether an error is of the `InvalidPacket` kind (the only kind that
`Socket::handle_invalid_packet_err` charges). -/
def NetError.isInvalidPacket : NetError → Bool
  | .InvalidPacket _ _ _ => true
  | _ => false

/-- A fresh remote server socket over `N` client slots, written out
literally (it is what `Socket.new_server N true` returns). -/
def sampleServer (N : Nat) : Socket :=
  { id := 0, server_addr := none, remote := true,
    clients :=
      { id_offset := 1, max_clients := N, invalid_key := 65535,
        addr_id := [],
        addr := SparseSet.new ClientAddr N 65535,
        sequence := SparseSet.new Nat N 65535,
        ping := SparseSet.new Nat N 65535,
        archive := [], errors := [], blacklist := [], pool := [] },
    sent := [] }

/-- A fresh remote client socket over one peer slot, written out
literally (it is what `Socket.new_client 1 (.Ip 1 31013) true`
returns). -/
def sampleClient : Socket :=
  { id := ClientId.INVALID, server_addr := some (.Ip 1 31013), remote := true,
    clients :=
      { id_offset := 0, max_clients := 1, invalid_key := 65535,
        addr_id := [],
        addr := SparseSet.new ClientAddr 1 65535,
        sequence := SparseSet.new Nat 1 65535,
        ping := SparseSet.new Nat 1 65535,
        archive := [], errors := [], blacklist := [], pool := [] },
    sent := [] }

/-- A well-formed `Connect` request from an unadmitted peer: unassigned
source, payload `ConnectionPayload(1, INVALID, 5000)`. -/
def connReq : Packet :=
  { label := .Connect, source := ClientId.INVALID, sequence := 0,
    payload := ConnectionPayload.encode ⟨1, ClientId.INVALID, 5000⟩ }

/-- The server `sampleServer 2` after admitting one `Connect` from
`Ip 7 70` (the peer holds id 1). -/
def serverWith1 : Socket :=
  ((sampleServer 2).recv_process 100 (.Ip 7 70) connReq).1

/-- The server `sampleServer 1` after admitting one `Connect` from
`Ip 7 70`: its single slot is full. -/
def serverFull1 : Socket :=
  ((sampleServer 1).recv_process 100 (.Ip 7 70) connReq).1

/-- Iterated `handle_invalid_packet_err` over a list of
`InvalidPacket` kinds and messages attributed to one address. -/
def chargeList (st : Socket) (now : Nat) (addr : ClientAddr) :
    List (InvalidPacketError × String) → Socket
  | [] => st
  | km :: rest =>
    chargeList (st.handle_invalid_packet_err now (.InvalidPacket addr km.1 km.2)).1
      now addr rest

/-- Six decode failures charged to `Ip 5 50` on a fresh server: past the
error budget, the address is blacklisted. -/
def blkServer : Socket :=
  chargeList (sampleServer 4) 50 (.Ip 5 50)
    [(.Payload, "a"), (.Payload, "b"), (.Payload, "c"),
     (.Payload, "d"), (.Payload, "e"), (.Payload, "f")]

/-- Coherence of an address with the storage, as maintained by the code:
a live record for the address stores that very address in the sparse
set at the index its map names; an archived address remembers an
internal index that is no longer live; an unknown address demands
nothing.  `ClientStorage::insert` stores the admitted address itself,
and archiving removes the live entry first, so every storage the
socket builds satisfies this. -/
def addrCoherent (c : ClientStorage) (addr : ClientAddr) : Bool :=
  match amap.get c.addr_id addr with
  | some i => decide (c.addr.get i = some addr)
  | none =>
    match amap.get c.archive addr with
    | some p => !c.addr.has_key p.1
    | none => true

/-! ## Theorems -/

/-! ### List and byte-string lemmas -/

theorem length_setNth {α : Type} (l : List α) (i : Nat) (x : α) :
    (setNth l i x).length = l.length := by
  induction l generalizing i with
  | nil => rfl
  | cons a l ih =>
    cases i with
    | zero => rfl
    | succ n => simpa [setNth] using ih n

theorem nth_setNth_self {α : Type} (l : List α) (i : Nat) (x : α)
    (h : i < l.length) : nth (setNth l i x) i = some x := by
  induction l generalizing i with
  | nil => simp at h
  | cons a l ih =>
    cases i with
    | zero => rfl
    | succ n =>
      simp only [setNth, nth]
      exact ih n (by simpa using h)

theorem nth_setNth_ne {α : Type} (l : List α) (i j : Nat) (x : α)
    (h : i ≠ j) : nth (setNth l i x) j = nth l j := by
  induction l generalizing i j with
  | nil => rfl
  | cons a l ih =>
    cases i with
    | zero => cases j with
      | zero => exact absurd rfl h
      | succ m => rfl
    | succ n =>
      cases j with
      | zero => rfl
      | succ m =>
        simp only [setNth, nth]
        exact ih n m (fun hnm => h (by rw [hnm]))

theorem nth_lt_length {α : Type} (l : List α) (i : Nat) (h : i < l.length) :
    ∃ a, nth l i = some a := by
  induction l generalizing i with
  | nil => simp at h
  | cons a l ih =>
    cases i with
    | zero => exact ⟨a, rfl⟩
    | succ n => exact ih n (by simpa using h)

theorem nth_append_left {α : Type} (l r : List α) (i : Nat)
    (h : i < l.length) : nth (l ++ r) i = nth l i := by
  induction l generalizing i with
  | nil => simp at h
  | cons a l ih =>
    cases i with
    | zero => rfl
    | succ n => exact ih n (by simpa using h)

theorem nth_append_self_length {α : Type} (l r : List α) :
    nth (l ++ r) l.length = nth r 0 := by
  induction l with
  | nil => rfl
  | cons a l ih => simpa [nth] using ih

theorem toBeBytes_length (w v : Nat) : (toBeBytes w v).length = w := by
  induction w generalizing v with
  | zero => rfl
  | succ n ih => simp [toBeBytes, ih]

theorem fromBeBytes_append_singleton (l : List Nat) (b : Nat) :
    fromBeBytes (l ++ [b]) = fromBeBytes l * 256 + b := by
  simp [fromBeBytes]

theorem fromBeBytes_toBeBytes (w v : Nat) (h : v < 256 ^ w) :
    fromBeBytes (toBeBytes w v) = v := by
  induction w generalizing v with
  | zero =>
    interval_cases v
    rfl
  | succ n ih =>
    have hdiv : v / 256 < 256 ^ n := by
      rw [Nat.div_lt_iff_lt_mul (by norm_num)]
      calc v < 256 ^ (n + 1) := h
        _ = 256 ^ n * 256 := by ring
    rw [toBeBytes, fromBeBytes_append_singleton, ih _ hdiv]
    omega

theorem toBeBytes_bytes_lt (w v : Nat) : ∀ b ∈ toBeBytes w v, b < 256 := by
  induction w generalizing v with
  | zero => intro b hb; simp [toBeBytes] at hb
  | succ n ih =>
    intro b hb
    simp only [toBeBytes, List.mem_append, List.mem_singleton] at hb
    rcases hb with hb | hb
    · exact ih _ b hb
    · rw [hb]; exact Nat.mod_lt _ (by norm_num)

theorem uintDecode_encode_append (w v : Nat) (rest : List Nat) (h : v < 256 ^ w) :
    uintDecode w (uintEncode w v ++ rest) = .ok (v, w) := by
  have hlen : (uintEncode w v).length = w := toBeBytes_length w v
  have hnot : ¬ ((uintEncode w v ++ rest).length < w) := by
    simp [hlen]
  have htake : (uintEncode w v ++ rest).take w = uintEncode w v :=
    List.take_left' hlen
  rw [uintDecode, if_neg hnot, htake]
  rw [show fromBeBytes (uintEncode w v) = v from fromBeBytes_toBeBytes w v h]

theorem uintDecode_encode (w v : Nat) (h : v < 256 ^ w) :
    uintDecode w (uintEncode w v) = .ok (v, w) := by
  have := uintDecode_encode_append w v [] h
  simpa using this

theorem boolDecode_encode_append (b : Bool) (rest : List Nat) :
    boolDecode (boolEncode b ++ rest) = .ok (b, 1) := by
  cases b <;> simp [boolEncode, boolDecode]

theorem durationDecode_encode_append (d : Duration) (rest : List Nat)
    (hs : d.secs < 2 ^ 64) (hn : d.nanos < 2 ^ 32) :
    durationDecode (durationEncode d ++ rest) = .ok (d, 12) := by
  have h8 : (toBeBytes 8 d.secs).length = 8 := toBeBytes_length _ _
  have h4 : (toBeBytes 4 d.nanos).length = 4 := toBeBytes_length _ _
  have hlen : ¬ ((durationEncode d ++ rest).length < 12) := by
    simp [durationEncode, h8, h4]
    omega
  rw [durationDecode, if_neg hlen]
  have htake8 : (durationEncode d ++ rest).take 8 = toBeBytes 8 d.secs := by
    rw [durationEncode, List.append_assoc]
    exact List.take_left' h8
  have hdrop8 : (durationEncode d ++ rest).drop 8 = toBeBytes 4 d.nanos ++ rest := by
    rw [durationEncode, List.append_assoc]
    exact List.drop_left' h8
  have htake4 : (toBeBytes 4 d.nanos ++ rest).take 4 = toBeBytes 4 d.nanos :=
    List.take_left' h4
  rw [htake8, hdrop8, htake4]
  rw [show fromBeBytes (toBeBytes 8 d.secs) = d.secs from
    fromBeBytes_toBeBytes 8 d.secs (by exact_mod_cast hs)]
  rw [show fromBeBytes (toBeBytes 4 d.nanos) = d.nanos from
    fromBeBytes_toBeBytes 4 d.nanos (by exact_mod_cast hn)]

/-! ### Codec round-trip lemmas -/

theorem drop_uintEncode_append (w v : Nat) (rest : List Nat) :
    (uintEncode w v ++ rest).drop w = rest :=
  List.drop_left' (toBeBytes_length w v)

theorem sintDecode_encode (w : Nat) (v : Int) (hw : 0 < w)
    (hlo : -(2 ^ (8 * w - 1) : Int) ≤ v) (hhi : v < 2 ^ (8 * w - 1)) :
    sintDecode w (sintEncode w v) = .ok (v, w) := by
  have hsplit : (2 : Int) ^ (8 * w) = 2 ^ (8 * w - 1) * 2 := by
    rw [← pow_succ]
    congr 1
    omega
  have hMpos : (0 : Int) < 2 ^ (8 * w) := by positivity
  have hPpos : (0 : Int) < 2 ^ (8 * w - 1) := by positivity
  have h256 : (256 : Nat) ^ w = 2 ^ (8 * w) := by
    rw [show (256 : Nat) = 2 ^ 8 by norm_num, ← pow_mul]
  have hmodlt : v % 2 ^ (8 * w) < 2 ^ (8 * w) := Int.emod_lt_of_pos v hMpos
  have hmodnn : 0 ≤ v % 2 ^ (8 * w) := Int.emod_nonneg v (ne_of_gt hMpos)
  have hcast : (((2 : Nat) ^ (8 * w - 1) : Nat) : Int) = (2 : Int) ^ (8 * w - 1) := by
    push_cast
    rfl
  have hncast : (((v % 2 ^ (8 * w)).toNat : Nat) : Int) = v % 2 ^ (8 * w) :=
    Int.toNat_of_nonneg hmodnn
  have hnlt : (v % 2 ^ (8 * w)).toNat < 256 ^ w := by
    rw [h256]
    have h2 : (((v % 2 ^ (8 * w)).toNat : Nat) : Int) < ((2 ^ (8 * w) : Nat) : Int) := by
      rw [hncast]
      push_cast
      exact hmodlt
    exact_mod_cast h2
  unfold sintDecode sintEncode
  rw [uintDecode_encode w _ hnlt]
  by_cases h0 : 0 ≤ v
  · have hveq : v % 2 ^ (8 * w) = v := by
      apply Int.emod_eq_of_lt h0
      calc v < 2 ^ (8 * w - 1) := hhi
        _ ≤ 2 ^ (8 * w) := by nlinarith
    have hvt : ((v.toNat : Nat) : Int) = v := Int.toNat_of_nonneg h0
    have hiflt : v.toNat < 2 ^ (8 * w - 1) := by
      have h2 : ((v.toNat : Nat) : Int) < (((2 : Nat) ^ (8 * w - 1) : Nat) : Int) := by
        rw [hvt, hcast]
        exact hhi
      exact_mod_cast h2
    simp only [hveq, hiflt, if_true, hvt]
  · have hneg : v < 0 := by omega
    have hveq : v % 2 ^ (8 * w) = v + 2 ^ (8 * w) := by
      have h1 : (v + 2 ^ (8 * w) * 1) % 2 ^ (8 * w) = v % 2 ^ (8 * w) :=
        Int.add_mul_emod_self_left v (2 ^ (8 * w)) 1
      have h2 : (v + 2 ^ (8 * w)) % 2 ^ (8 * w) = v + 2 ^ (8 * w) := by
        apply Int.emod_eq_of_lt (by nlinarith) (by nlinarith)
      calc v % 2 ^ (8 * w) = (v + 2 ^ (8 * w) * 1) % 2 ^ (8 * w) := h1.symm
        _ = (v + 2 ^ (8 * w)) % 2 ^ (8 * w) := by ring_nf
        _ = v + 2 ^ (8 * w) := h2
    have hvt : (((v + 2 ^ (8 * w)).toNat : Nat) : Int) = v + 2 ^ (8 * w) :=
      Int.toNat_of_nonneg (by nlinarith)
    have hifge : ¬ ((v + 2 ^ (8 * w)).toNat < 2 ^ (8 * w - 1)) := by
      intro hcon
      have h2 : (((v + 2 ^ (8 * w)).toNat : Nat) : Int) < (((2 : Nat) ^ (8 * w - 1) : Nat) : Int) := by
        exact_mod_cast hcon
      rw [hvt, hcast] at h2
      nlinarith
    simp only [hveq, hifge, if_false, hvt]
    have hfin : v + 2 ^ (8 * w) - 2 ^ (8 * w) = v := by ring
    rw [hfin]

theorem stringDecode_encode (s : List Nat) (hne : s ≠ [])
    (hval : utf8Valid s = true) :
    stringDecode (stringEncode s) = .ok (s, (stringEncode s).length) := by
  unfold stringDecode stringEncode
  rw [if_neg (by simpa [List.isEmpty_iff] using hne), if_pos hval]

theorem optionDecode_encode {α : Type} (enc : α → List Nat)
    (dec : List Nat → Except NetError (α × Nat))
    (hrt : ∀ x, dec (enc x) = .ok (x, (enc x).length)) (v : Option α) :
    optionDecode dec (optionEncode enc v) = .ok (v, (optionEncode enc v).length) := by
  cases v with
  | none => simp [optionEncode, optionDecode]
  | some x => simp [optionEncode, optionDecode, hrt x]

theorem sumDecode_encode {α β : Type} (encA : α → List Nat)
    (decA : List Nat → Except NetError (α × Nat)) (encB : β → List Nat)
    (decB : List Nat → Except NetError (β × Nat))
    (hA : ∀ x, decA (encA x) = .ok (x, (encA x).length))
    (hB : ∀ y, decB (encB y) = .ok (y, (encB y).length)) (v : α ⊕ β) :
    sumDecode decA decB (sumEncode encA encB v) =
      .ok (v, (sumEncode encA encB v).length) := by
  cases v with
  | inl a => simp [sumEncode, sumDecode, hA a]
  | inr b => simp [sumEncode, sumDecode, hB b]

theorem connectionPayload_decode_encode (c : ConnectionPayload)
    (h0 : c.f0 < 256) (h1 : c.f1 < 65536) (h2 : c.f2 < 2 ^ 64) :
    ConnectionPayload.decode (ConnectionPayload.encode c) = .ok (c, 11) := by
  have henc : ConnectionPayload.encode c =
      uintEncode 1 c.f0 ++ (uintEncode 2 c.f1 ++ uintEncode 8 c.f2) := by
    simp [ConnectionPayload.encode, clientIdEncode, List.append_assoc]
  have hd3 : (uintEncode 1 c.f0 ++ (uintEncode 2 c.f1 ++ uintEncode 8 c.f2)).drop (1 + 2) =
      uintEncode 8 c.f2 := by
    rw [← List.append_assoc]
    apply List.drop_left'
    simp [uintEncode, toBeBytes_length]
  have hu1 : uintDecode 1 (uintEncode 1 c.f0 ++ (uintEncode 2 c.f1 ++ uintEncode 8 c.f2)) =
      .ok (c.f0, 1) :=
    uintDecode_encode_append 1 c.f0 _ (by simpa using h0)
  have hu2 : uintDecode 2 (uintEncode 2 c.f1 ++ uintEncode 8 c.f2) = .ok (c.f1, 2) :=
    uintDecode_encode_append 2 c.f1 _ (by rw [show (256 : Nat) ^ 2 = 65536 by norm_num]; exact h1)
  have hu8 : uintDecode 8 (uintEncode 8 c.f2) = .ok (c.f2, 8) :=
    uintDecode_encode 8 c.f2 (by rw [show (256 : Nat) ^ 8 = 2 ^ 64 by norm_num]; exact h2)
  simp only [ConnectionPayload.decode, henc, clientIdDecode, hu1,
    drop_uintEncode_append, hu2, hd3, hu8]

theorem durationEncode_length (d : Duration) : (durationEncode d).length = 12 := by
  simp [durationEncode, toBeBytes_length]

theorem pingPayload_decode_encode (p : PingPayload)
    (hs : p.f0.secs < 2 ^ 64) (hn : p.f0.nanos < 10 ^ 9) :
    PingPayload.decode (PingPayload.encode p) = .ok (p, 13) := by
  have hd : (durationEncode p.f0 ++ boolEncode p.f1).drop 12 = boolEncode p.f1 :=
    List.drop_left' (durationEncode_length p.f0)
  have hb : boolDecode (boolEncode p.f1) = .ok (p.f1, 1) := by
    have hb0 := boolDecode_encode_append p.f1 []
    simpa using hb0
  simp only [PingPayload.decode, PingPayload.encode,
    durationDecode_encode_append p.f0 _ hs (by norm_num at hn ⊢; omega), hd, hb]

theorem messagePayload_decode_encode (m : MessagePayload) (hne : m.f0 ≠ [])
    (hval : utf8Valid m.f0 = true) :
    MessagePayload.decode (MessagePayload.encode m) = .ok (m, m.f0.length) := by
  simp only [MessagePayload.decode, MessagePayload.encode,
    stringDecode_encode m.f0 hne hval]
  rfl

/-! ### Claim C1 -/

/-- Claim C1 as frozen is false at the empty `String`: the codec's
`String` decoder rejects empty input ("need 1" in
`src/net/traits.rs`), so decoding the encoding of the empty string is
a codec error instead of the pair `("", 0)`. -/
theorem C1_counterexample :
    stringDecode (stringEncode []) ≠
      Except.ok (([] : List Nat), (stringEncode ([] : List Nat)).length) := by
  decide

/-- Claim C1, amended: the codec round-trip `decode (encode v) = (v,
len (encode v))` holds for every value of the schema types except the
empty `String` — for fixed-width unsigned and signed integers, bool,
`Duration`, nonempty `String`s, `Vec<u8>`, `Option<T>` over any
round-tripping element codec, unit, the derived records
(`ConnectionPayload`, `PingPayload`, `MessagePayload`), and derived
tagged unions. -/
theorem C1_codec_roundtrip :
    (∀ w v, v < 256 ^ w → uintDecode w (uintEncode w v) = .ok (v, (uintEncode w v).length)) ∧
    (∀ w (v : Int), 0 < w → -(2 ^ (8 * w - 1) : Int) ≤ v → v < 2 ^ (8 * w - 1) →
      sintDecode w (sintEncode w v) = .ok (v, (sintEncode w v).length)) ∧
    (∀ b, boolDecode (boolEncode b) = .ok (b, (boolEncode b).length)) ∧
    (∀ d : Duration, d.secs < 2 ^ 64 → d.nanos < 10 ^ 9 →
      durationDecode (durationEncode d) = .ok (d, (durationEncode d).length)) ∧
    (∀ s : List Nat, s ≠ [] → utf8Valid s = true →
      stringDecode (stringEncode s) = .ok (s, (stringEncode s).length)) ∧
    (∀ v : List Nat, vecU8Decode (vecU8Encode v) = .ok (v, (vecU8Encode v).length)) ∧
    (∀ (α : Type) (enc : α → List Nat) (dec : List Nat → Except NetError (α × Nat)),
      (∀ x, dec (enc x) = .ok (x, (enc x).length)) →
      ∀ v : Option α,
        optionDecode dec (optionEncode enc v) = .ok (v, (optionEncode enc v).length)) ∧
    (unitDecode (unitEncode ()) = .ok ((), (unitEncode ()).length)) ∧
    (∀ c : ConnectionPayload, c.f0 < 256 → c.f1 < 65536 → c.f2 < 2 ^ 64 →
      ConnectionPayload.decode (ConnectionPayload.encode c) =
        .ok (c, (ConnectionPayload.encode c).length)) ∧
    (∀ p : PingPayload, p.f0.secs < 2 ^ 64 → p.f0.nanos < 10 ^ 9 →
      PingPayload.decode (PingPayload.encode p) =
        .ok (p, (PingPayload.encode p).length)) ∧
    (∀ m : MessagePayload, m.f0 ≠ [] → utf8Valid m.f0 = true →
      MessagePayload.decode (MessagePayload.encode m) =
        .ok (m, (MessagePayload.encode m).length)) ∧
    (∀ (α β : Type) (encA : α → List Nat) (decA : List Nat → Except NetError (α × Nat))
        (encB : β → List Nat) (decB : List Nat → Except NetError (β × Nat)),
      (∀ x, decA (encA x) = .ok (x, (encA x).length)) →
      (∀ y, decB (encB y) = .ok (y, (encB y).length)) →
      ∀ v : α ⊕ β, sumDecode decA decB (sumEncode encA encB v) =
        .ok (v, (sumEncode encA encB v).length)) := by
  refine ⟨?_, ?_, ?_, ?_, ?_, ?_, ?_, ?_, ?_, ?_, ?_, ?_⟩
  · intro w v h
    rw [uintDecode_encode w v h]
    simp [uintEncode, toBeBytes_length]
  · intro w v hw hlo hhi
    rw [sintDecode_encode w v hw hlo hhi]
    simp [sintEncode, uintEncode, toBeBytes_length]
  · intro b
    cases b <;> rfl
  · intro d hs hn
    have := durationDecode_encode_append d [] hs (by norm_num at hn ⊢; omega)
    simp only [List.append_nil] at this
    rw [this, durationEncode_length]
  · exact stringDecode_encode
  · intro v
    rfl
  · intro α enc dec hrt v
    exact optionDecode_encode enc dec hrt v
  · rfl
  · intro c h0 h1 h2
    rw [connectionPayload_decode_encode c h0 h1 h2]
    simp [ConnectionPayload.encode, clientIdEncode, uintEncode, toBeBytes_length]
  · intro p hs hn
    rw [pingPayload_decode_encode p hs hn]
    simp [PingPayload.encode, boolEncode, durationEncode, toBeBytes_length]
  · intro m hne hval
    rw [messagePayload_decode_encode m hne hval]
    rfl
  · intro α β encA decA encB decB hA hB v
    exact sumDecode_encode encA decA encB decB hA hB v

/-- Witness for claim C1's amended theorem at concrete inputs. -/
theorem C1_codec_roundtrip_witness :
    uintDecode 2 (uintEncode 2 4660) = .ok (4660, (uintEncode 2 4660).length) ∧
    sintDecode 1 (sintEncode 1 (-5)) = .ok (-5, (sintEncode 1 (-5)).length) ∧
    durationDecode (durationEncode ⟨10, 0⟩) =
      .ok (⟨10, 0⟩, (durationEncode ⟨10, 0⟩).length) ∧
    stringDecode (stringEncode [104, 105]) =
      .ok ([104, 105], (stringEncode [104, 105]).length) ∧
    optionDecode boolDecode (optionEncode boolEncode (some true)) =
      .ok (some true, (optionEncode boolEncode (some true)).length) ∧
    ConnectionPayload.decode (ConnectionPayload.encode ⟨1, 65535, 5000⟩) =
      .ok (⟨1, 65535, 5000⟩, (ConnectionPayload.encode ⟨1, 65535, 5000⟩).length) ∧
    PingPayload.decode (PingPayload.encode ⟨⟨10, 0⟩, true⟩) =
      .ok (⟨⟨10, 0⟩, true⟩, (PingPayload.encode ⟨⟨10, 0⟩, true⟩).length) ∧
    MessagePayload.decode (MessagePayload.encode ⟨[104]⟩) =
      .ok (⟨[104]⟩, (MessagePayload.encode ⟨[104]⟩).length) ∧
    sumDecode boolDecode boolDecode (sumEncode boolEncode boolEncode (.inl true)) =
      .ok (.inl true, (sumEncode boolEncode boolEncode (.inl true)).length) :=
  ⟨C1_codec_roundtrip.1 2 4660 (by decide),
   C1_codec_roundtrip.2.1 1 (-5) (by decide) (by decide) (by decide),
   C1_codec_roundtrip.2.2.2.1 ⟨10, 0⟩ (by decide) (by decide),
   C1_codec_roundtrip.2.2.2.2.1 [104, 105] (by decide) (by decide),
   C1_codec_roundtrip.2.2.2.2.2.2.1 Bool boolEncode boolDecode
     (fun x => by cases x <;> rfl) (some true),
   C1_codec_roundtrip.2.2.2.2.2.2.2.2.1 ⟨1, 65535, 5000⟩ (by decide) (by decide)
     (by decide),
   C1_codec_roundtrip.2.2.2.2.2.2.2.2.2.1 ⟨⟨10, 0⟩, true⟩ (by decide) (by decide),
   C1_codec_roundtrip.2.2.2.2.2.2.2.2.2.2.1 ⟨[104]⟩ (by decide) (by decide),
   C1_codec_roundtrip.2.2.2.2.2.2.2.2.2.2.2 Bool Bool boolEncode boolDecode
     boolEncode boolDecode (fun x => by cases x <;> rfl)
     (fun y => by cases y <;> rfl) (.inl true)⟩

/-! ### Claim C2 and C7: the packet envelope -/

theorem packetLabel_ofByte_toByte (l : packet.PacketLabel) :
    packet.PacketLabel.ofByte (packet.PacketLabel.toByte l) = l := by
  cases l <;> rfl

theorem packet_tryFrom_toBytes (p : packet.Packet)
    (hv : p.version = packet.Packet.CURRENT_VERSION)
    (hl : p.label ≠ .Unknown) (hs : p.sender < 65536) (hq : p.sequence < 65536) :
    packet.Packet.tryFrom (packet.Packet.toBytes p) = .ok p := by
  have hlen : ¬ ((packet.Packet.toBytes p).length < 6) := by
    simp [packet.Packet.toBytes, toBeBytes_length]
    omega
  have e0 : nthD (packet.Packet.toBytes p) 0 0 = p.version := rfl
  have e1 : nthD (packet.Packet.toBytes p) 1 0 = packet.PacketLabel.toByte p.label := rfl
  have hofl : packet.PacketLabel.ofByte (packet.PacketLabel.toByte p.label) = p.label :=
    packetLabel_ofByte_toByte p.label
  have ed2 : ((packet.Packet.toBytes p).drop 2).take 2 = toBeBytes 2 p.sender := by
    show ((toBeBytes 2 p.sender ++ toBeBytes 2 p.sequence ++ p.payload)).take 2 = _
    rw [List.append_assoc]
    exact List.take_left' (toBeBytes_length 2 _)
  have ed4 : ((packet.Packet.toBytes p).drop 4).take 2 = toBeBytes 2 p.sequence := by
    show (((toBeBytes 2 p.sender ++ toBeBytes 2 p.sequence ++ p.payload)).drop 2).take 2 = _
    rw [List.append_assoc, List.drop_left' (toBeBytes_length 2 _)]
    exact List.take_left' (toBeBytes_length 2 _)
  have ed6 : (packet.Packet.toBytes p).drop 6 = p.payload := by
    show ((toBeBytes 2 p.sender ++ toBeBytes 2 p.sequence ++ p.payload)).drop 4 = _
    apply List.drop_left'
    simp [toBeBytes_length]
  have hfs : fromBeBytes (toBeBytes 2 p.sender) = p.sender :=
    fromBeBytes_toBeBytes 2 _ (by norm_num; omega)
  have hfq : fromBeBytes (toBeBytes 2 p.sequence) = p.sequence :=
    fromBeBytes_toBeBytes 2 _ (by norm_num; omega)
  have hv1 : p.version = 1 := hv
  rw [packet.Packet.tryFrom, if_neg hlen]
  simp only [e0, e1, hv, hofl, packet.Packet.CURRENT_VERSION]
  rw [if_neg (by simp)]
  rw [if_neg hl]
  simp only [ed2, ed4, ed6, hfs, hfq, ← hv1]

/-- Claim C2 as frozen is false on the envelope layout: serializing the
packet {version 1, label Connect, sender 3, sequence 5, payload [9]}
yields the seven bytes 1,2,0,3,0,5,9 — a version byte comes first —
not the six bytes 2,0,3,0,5,9 that a version-free
label ‖ source ‖ sequence ‖ payload layout would produce. -/
theorem C2_counterexample :
    packet.Packet.toBytes ⟨1, .Connect, 3, 5, [9]⟩ = [1, 2, 0, 3, 0, 5, 9] ∧
    [1, 2, 0, 3, 0, 5, 9] ≠
      packet.PacketLabel.toByte .Connect ::
        (toBeBytes 2 3 ++ toBeBytes 2 5 ++ [9]) := by
  decide

/-- Claim C2, amended: serializing a packet produces 1 byte version
(equal to 1 for packets the code builds), then 1 byte label, then 2
bytes sender big-endian, then 2 bytes sequence big-endian, then the
payload (6 header bytes in total); decoding round-trips this encoding;
and every input shorter than 6 bytes (in particular anything shorter
than 5) is rejected with an invalid-packet-size error. -/
theorem C2_envelope :
    (∀ p : packet.Packet,
      packet.Packet.toBytes p =
        p.version :: packet.PacketLabel.toByte p.label ::
          (toBeBytes 2 p.sender ++ toBeBytes 2 p.sequence ++ p.payload) ∧
      (packet.Packet.toBytes p).length = 6 + p.payload.length) ∧
    (∀ p : packet.Packet, p.version = packet.Packet.CURRENT_VERSION →
      p.label ≠ .Unknown → p.sender < 65536 → p.sequence < 65536 →
      packet.Packet.tryFrom (packet.Packet.toBytes p) = .ok p) ∧
    (∀ bytes : List Nat, bytes.length < 6 →
      packet.Packet.tryFrom bytes =
        .error ⟨.InvalidPacketSize, some 6, bytes.length⟩) := by
  refine ⟨?_, packet_tryFrom_toBytes, ?_⟩
  · intro p
    constructor
    · rfl
    · simp [packet.Packet.toBytes, toBeBytes_length]
      omega
  · intro bytes h
    rw [packet.Packet.tryFrom, if_pos h]

/-- Witness for claim C2's amended theorem at concrete inputs. -/
theorem C2_envelope_witness :
    packet.Packet.tryFrom (packet.Packet.toBytes ⟨1, .Connect, 3, 5, [9]⟩) =
      .ok ⟨1, .Connect, 3, 5, [9]⟩ ∧
    packet.Packet.tryFrom [1, 2, 0] =
      .error ⟨.InvalidPacketSize, some 6, ([1, 2, 0] : List Nat).length⟩ :=
  ⟨C2_envelope.2.1 ⟨1, .Connect, 3, 5, [9]⟩ (by decide) (by decide) (by decide)
      (by decide),
   C2_envelope.2.2 [1, 2, 0] (by decide)⟩

/-- Claim C7 as frozen is false: the label byte 6 does not decode to an
`Extension` label — `PacketLabel::from` maps every byte at or above 6
to `Unknown`, and packet decoding then fails with an
`InvalidPacketLabel` error instead of succeeding. -/
theorem C7_counterexample :
    packet.PacketLabel.ofByte 6 = .Unknown ∧
    packet.Packet.tryFrom [1, 6, 0, 0, 0, 0] =
      .error ⟨.InvalidPacketLabel, none, 6⟩ := by
  decide

/-- Claim C7, amended: for every label byte b at or above 6,
`PacketLabel::from` yields `Unknown`, and decoding a datagram carrying
that label byte (after a valid version byte) fails with an
`InvalidPacketLabel` error naming b, instead of any forward-compatible
`Extension` label. -/
theorem C7_label_unknown :
    ∀ (b : Nat) (rest : List Nat), 6 ≤ b → 4 ≤ rest.length →
      packet.PacketLabel.ofByte b = .Unknown ∧
      packet.Packet.tryFrom (1 :: b :: rest) =
        .error ⟨.InvalidPacketLabel, none, b⟩ := by
  intro b rest hb hr
  have hof : packet.PacketLabel.ofByte b = .Unknown := by
    unfold packet.PacketLabel.ofByte
    rw [if_neg (by omega), if_neg (by omega), if_neg (by omega),
      if_neg (by omega), if_neg (by omega), if_neg (by omega)]
  refine ⟨hof, ?_⟩
  have hlen : ¬ ((1 :: b :: rest).length < 6) := by
    simp
    omega
  rw [packet.Packet.tryFrom, if_neg hlen]
  have e0 : nthD (1 :: b :: rest) 0 0 = 1 := rfl
  have e1 : nthD (1 :: b :: rest) 1 0 = b := rfl
  simp only [e0, e1, hof, packet.Packet.CURRENT_VERSION]
  simp

/-- Witness for claim C7's amended theorem at the label byte 6. -/
theorem C7_label_unknown_witness :
    packet.PacketLabel.ofByte 6 = .Unknown ∧
    packet.Packet.tryFrom (1 :: 6 :: [0, 0, 0, 0]) =
      .error ⟨.InvalidPacketLabel, none, 6⟩ :=
  C7_label_unknown 6 [0, 0, 0, 0] (by decide) (by decide)

/-! ### Claim C9: error packet tags -/

/-- Claim C9 as frozen is false: the on-wire byte of
`TooManyConnections` is 1, not 0 — the first variant carries the
explicit discriminant `0x01`. -/
theorem C9_counterexample : ErrorPacket.toU8 .TooManyConnections ≠ 0 := by
  decide

/-- Claim C9, amended: the on-wire byte of each `ErrorPacket` variant is
its declaration index plus one, over the declaration order
TooManyConnections, Blacklisted, InvalidPacketVersion,
InvalidPacketSize, InvalidPacketLabel, Unknown (so TooManyConnections
is 1), and `Socket::send_err` writes exactly that byte as the first
payload byte of the error packet it emits. -/
theorem C9_error_tags :
    ErrorPacket.toU8 .TooManyConnections = 1 ∧
    ErrorPacket.toU8 .Blacklisted = 2 ∧
    ErrorPacket.toU8 .InvalidPacketVersion = 3 ∧
    ErrorPacket.toU8 .InvalidPacketSize = 4 ∧
    ErrorPacket.toU8 .InvalidPacketLabel = 5 ∧
    ErrorPacket.toU8 .Unknown = 6 ∧
    (∀ (st : Socket) (dest : ClientAddr) (code : ErrorPacket) (msg : List Nat),
      ∃ q : Packet, (st.send_err dest code msg).sent = st.sent ++ [(dest, q)] ∧
        q.label = .Error ∧ q.payload = ErrorPacket.toU8 code :: msg) := by
  refine ⟨rfl, rfl, rfl, rfl, rfl, rfl, ?_⟩
  intro st dest code msg
  unfold Socket.send_err
  cases hga : st.clients.get_id dest with
  | none =>
    refine ⟨⟨.Error, st.id, 0, ErrorPacket.toU8 code :: msg⟩, ?_, rfl, rfl⟩
    simp [Packet.new]
  | some cid =>
    cases hbs : st.clients.bump_sequence cid with
    | none =>
      refine ⟨⟨.Error, st.id, 0, ErrorPacket.toU8 code :: msg⟩, ?_, rfl, rfl⟩
      simp [hbs, Packet.new]
    | some cv =>
      refine ⟨⟨.Error, st.id, cv.2, ErrorPacket.toU8 code :: msg⟩, ?_, rfl, rfl⟩
      simp [hbs, Packet.new]

/-! ### Claim C10: only InvalidPacket errors are charged -/

/-- Claim C10: `handle_invalid_packet_err` returns `Ok` and leaves the
socket (error counters, blacklist, live records, outbound log)
completely unchanged for every error that is not of the
`InvalidPacket` kind, so such errors never contribute to
blacklisting. -/
theorem C10_only_invalid_charged :
    ∀ (st : Socket) (now : Nat) (err : NetError),
      err.isInvalidPacket = false →
      st.handle_invalid_packet_err now err = (st, .ok ()) := by
  intro st now err h
  cases err <;> simp_all [Socket.handle_invalid_packet_err, NetError.isInvalidPacket]

/-- Witness for claim C10 at a concrete socket and error. -/
theorem C10_only_invalid_charged_witness :
    (sampleServer 2).handle_invalid_packet_err 7
      (.NotConnected (.Ip 9 90)) = (sampleServer 2, .ok ()) :=
  C10_only_invalid_charged (sampleServer 2) 7 (.NotConnected (.Ip 9 90)) (by decide)

/-! ### Claim C6: sequence stamping -/

theorem list_append_singleton_inj {α : Type} (l : List α) (a b : α)
    (h : l ++ [a] = l ++ [b]) : a = b := by
  have h2 := congrArg (fun t => t.drop l.length) h
  simpa [List.drop_left] using h2

theorem get_dense_idx_spec {T : Type} (s : SparseSet T) (k d : Nat)
    (h : s.get_dense_idx k = some d) :
    d < s.dense.length ∧ k < s.max_capacity ∧
      nthD s.sparse k s.invalid_key = d := by
  unfold SparseSet.get_dense_idx at h
  split at h
  · simp at h
  · rename_i hk
    split at h
    · rename_i hlt
      cases h
      exact ⟨hlt, by omega, rfl⟩
    · simp at h


theorem sset_get_set_value {T : Type} (s : SparseSet T) (k : Nat) (v x : T)
    (h : s.get k = some x) : (s.set_value k v).get k = some v := by
  unfold SparseSet.get at h
  cases hdi : s.get_dense_idx k with
  | none => rw [hdi] at h; simp at h
  | some d =>
    rw [hdi] at h
    simp only [Option.some_bind] at h
    cases hne : nth s.dense d with
    | none => rw [hne] at h; simp at h
    | some e =>
      obtain ⟨hdlt, _, _⟩ := get_dense_idx_spec s k d hdi
      simp only [SparseSet.set_value, hdi, hne]
      unfold SparseSet.get
      have hdi' : SparseSet.get_dense_idx
          { s with dense := setNth s.dense d ⟨e.key, v⟩ } k = some d := by
        unfold SparseSet.get_dense_idx
        unfold SparseSet.get_dense_idx at hdi
        simpa [length_setNth] using hdi
      rw [hdi']
      simp only [Option.some_bind]
      rw [nth_setNth_self _ _ _ (by simpa [length_setNth] using hdlt)]
      rfl

theorem bump_sequence_step (c : ClientStorage) (id : Nat) (c1 : ClientStorage)
    (v : Nat) (h : c.bump_sequence id = some (c1, v)) :
    ∃ c2, c1.bump_sequence id = some (c2, (v + 1) % 65536) := by
  unfold ClientStorage.bump_sequence at h ⊢
  cases hg : c.get_sequence id with
  | none => rw [hg] at h; simp at h
  | some s0 =>
    rw [hg] at h
    simp only [Option.some.injEq, Prod.mk.injEq] at h
    obtain ⟨hc1, hv⟩ := h
    have hg1 : c1.get_sequence id = some v := by
      rw [← hc1, ← hv]
      unfold ClientStorage.get_sequence at hg ⊢
      exact sset_get_set_value _ _ _ _ hg
    rw [hg1]
    exact ⟨_, rfl⟩

theorem send_ok_stamped (st st' : Socket) (dest : ClientId) (p : Packet)
    (a : ClientAddr) (q : Packet)
    (hc : p.source ≠ ClientId.INVALID ∨ p.label ≠ PacketLabel.Connect)
    (hs : st.send ⟨dest, p⟩ = (st', .ok ()))
    (he : st'.sent = st.sent ++ [(a, q)]) :
    ∃ c1 v, st.clients.bump_sequence dest = some (c1, v) ∧
      q.sequence = v ∧ st'.clients = c1 := by
  unfold Socket.send at hs
  by_cases hself : st.id = dest ∧ p.label ≠ PacketLabel.Connect
  · rw [if_pos hself] at hs
    simp at hs
  · rw [if_neg hself] at hs
    simp only [if_pos hc] at hs
    cases hb : st.clients.bump_sequence dest with
    | none => simp only [hb] at hs; simp at hs
    | some cv =>
      obtain ⟨c1, v⟩ := cv
      simp only [hb] at hs
      cases hga : ClientStorage.get_addr c1 dest with
      | some x =>
        simp only [hga] at hs
        injection hs with hst hok
        subst hst
        replace he : st.sent ++ [(x, { p with sequence := v })] =
            st.sent ++ [(a, q)] := he
        have hpq := list_append_singleton_inj _ _ _ he
        injection hpq with hxa hq
        refine ⟨c1, v, rfl, ?_, rfl⟩
        rw [← hq]
      | none =>
        simp only [hga] at hs
        cases hsa : st.server_addr with
        | some a2 =>
          simp only [hsa] at hs
          injection hs with hst hok
          subst hst
          replace he : st.sent ++ [(a2, { p with sequence := v })] =
              st.sent ++ [(a, q)] := he
          have hpq := list_append_singleton_inj _ _ _ he
          injection hpq with hxa hq
          refine ⟨c1, v, rfl, ?_, rfl⟩
          rw [← hq]
        | none =>
          simp only [hsa] at hs
          by_cases hr : ¬st.remote
          · simp only [if_pos hr] at hs
            injection hs with hst hok
            subst hst
            replace he : st.sent ++ [(ClientAddr.Local 0, { p with sequence := v })] =
                st.sent ++ [(a, q)] := he
            have hpq := list_append_singleton_inj _ _ _ he
            injection hpq with hxa hq
            refine ⟨c1, v, rfl, ?_, rfl⟩
            rw [← hq]
          · simp only [if_neg hr] at hs
            simp at hs

/-- Claim C6 as frozen is false: a freshly constructed client sends two
consecutive `Connect` packets (unassigned source) to id 0; both sends
succeed, but both transmitted packets carry sequence 0 — the
sequence-stamping step is skipped for a `Connect` whose source is the
invalid sentinel, so the second sequence is not the first plus one. -/
theorem C6_counterexample :
    Socket.new_client 1 (.Ip 1 31013) true = .ok sampleClient ∧
    (sampleClient.send ⟨0, Packet.new .Connect 65535⟩).2 = .ok () ∧
    ((sampleClient.send ⟨0, Packet.new .Connect 65535⟩).1.send
        ⟨0, Packet.new .Connect 65535⟩).2 = .ok () ∧
    (sampleClient.send ⟨0, Packet.new .Connect 65535⟩).1.sent =
      [(.Ip 1 31013, ⟨.Connect, 65535, 0, []⟩)] ∧
    ((sampleClient.send ⟨0, Packet.new .Connect 65535⟩).1.send
        ⟨0, Packet.new .Connect 65535⟩).1.sent =
      [(.Ip 1 31013, ⟨.Connect, 65535, 0, []⟩),
       (.Ip 1 31013, ⟨.Connect, 65535, 0, []⟩)] ∧
    (0 : Nat) ≠ (0 + 1) % 65536 := by
  decide

/-- Claim C6, amended: for any two consecutive `Socket::send` calls that
both succeed with the same destination id and both take the
sequence-stamping path (packet source assigned, or label other than
`Connect` — the path is skipped only for a `Connect` with the invalid
source), the sequence stamped into the second transmitted packet
equals the sequence stamped into the first plus 1 modulo 2^16. -/
theorem C6_sequence_monotonic :
    ∀ (st0 st1 st2 : Socket) (dest : ClientId) (p1 p2 : Packet)
      (a1 a2 : ClientAddr) (q1 q2 : Packet),
      (p1.source ≠ ClientId.INVALID ∨ p1.label ≠ PacketLabel.Connect) →
      (p2.source ≠ ClientId.INVALID ∨ p2.label ≠ PacketLabel.Connect) →
      st0.send ⟨dest, p1⟩ = (st1, .ok ()) →
      st1.send ⟨dest, p2⟩ = (st2, .ok ()) →
      st1.sent = st0.sent ++ [(a1, q1)] →
      st2.sent = st1.sent ++ [(a2, q2)] →
      q2.sequence = (q1.sequence + 1) % 65536 := by
  intro st0 st1 st2 dest p1 p2 a1 a2 q1 q2 hc1 hc2 hs1 hs2 he1 he2
  obtain ⟨c1, v1, hb1, hq1, hcl1⟩ := send_ok_stamped st0 st1 dest p1 a1 q1 hc1 hs1 he1
  obtain ⟨c2, v2, hb2, hq2, hcl2⟩ := send_ok_stamped st1 st2 dest p2 a2 q2 hc2 hs2 he2
  obtain ⟨c3, hb3⟩ := bump_sequence_step st0.clients dest c1 v1 hb1
  rw [hcl1, hb3] at hb2
  injection hb2 with hp
  injection hp with hc hv2
  rw [hq2, hq1, ← hv2]

/-- Witness for claim C6's amended theorem: two `Message` sends from a
server to its one connected client carry sequences 2 and 3. -/
theorem C6_sequence_monotonic_witness :
    (⟨.Message, 0, 3, []⟩ : Packet).sequence =
      ((⟨.Message, 0, 2, []⟩ : Packet).sequence + 1) % 65536 :=
  C6_sequence_monotonic serverWith1
    ((serverWith1.send ⟨1, Packet.new .Message 0⟩).1)
    (((serverWith1.send ⟨1, Packet.new .Message 0⟩).1.send
        ⟨1, Packet.new .Message 0⟩).1)
    1 (Packet.new .Message 0) (Packet.new .Message 0)
    (.Ip 7 70) (.Ip 7 70) ⟨.Message, 0, 2, []⟩ ⟨.Message, 0, 3, []⟩
    (by decide) (by decide) (by decide) (by decide) (by decide) (by decide)

/-! ### Claim C8: ping echo -/

theorem get_ping_set_ping_self (c : ClientStorage) (i now pv : Nat)
    (h : c.get_ping i = some pv) :
    (c.set_ping i now).get_ping i = some now := by
  unfold ClientStorage.get_ping at h ⊢
  unfold ClientStorage.set_ping
  exact sset_get_set_value _ _ _ _ h

/-- Claim C8: when a server receives a `Ping` from a live client whose
payload decodes to `(ts, respond = true)`, it updates that client's
last-seen ping instant to `now` and transmits back to the client's
address a `Ping` packet whose payload is `PingPayload(ts, false)`,
with the timestamp unchanged. -/
theorem C8_ping_echo :
    ∀ (st : Socket) (now : Nat) (addr raddr : ClientAddr) (cid : ClientId)
      (sq pv : Nat) (ts : Duration) (pkt : Packet),
      st.is_server = true →
      st.clients.is_blacklisted addr = false →
      st.clients.get_id addr = some cid →
      pkt.label = .Ping → pkt.source = cid → cid ≠ ClientId.INVALID →
      pkt.payload = PingPayload.encode ⟨ts, true⟩ →
      ts.secs < 2 ^ 64 → ts.nanos < 10 ^ 9 →
      st.id ≠ cid →
      st.clients.get_ping cid = some pv →
      st.clients.get_sequence cid = some sq →
      st.clients.get_addr cid = some raddr →
      ∃ (st' : Socket) (q : Packet),
        st.recv_process now addr pkt = (st', .ok (some pkt)) ∧
        st'.clients.get_ping cid = some now ∧
        st'.sent = st.sent ++ [(raddr, q)] ∧
        q.label = .Ping ∧ q.source = st.id ∧
        q.payload = PingPayload.encode ⟨ts, false⟩ := by
  intro st now addr raddr cid sq pv ts pkt hsrv hblk hgid hlbl hsrc hcid hpl hts hn
    hid hping hseq haddr
  have hval : st.validate now addr pkt = (st, .ok pkt) := by
    unfold Socket.validate
    rw [if_neg (by simp [hblk])]
    rw [if_neg (by rw [hsrc]; exact hcid)]
    rw [if_pos (by simp [hsrv])]
    have hlook : st.validate_client_lookup addr pkt.source = .ok () := by
      unfold Socket.validate_client_lookup
      rw [hgid, hsrc]
      simp
    rw [hlook]
  have hdec : PingPayload.decode pkt.payload = .ok (⟨ts, true⟩, 13) := by
    rw [hpl]
    exact pingPayload_decode_encode ⟨ts, true⟩ hts hn
  have hping1 : (st.clients.set_ping cid now).get_ping cid = some now :=
    get_ping_set_ping_self st.clients cid now pv hping
  have hseq1 : (st.clients.set_ping cid now).get_sequence cid = some sq := hseq
  have hbump : (st.clients.set_ping cid now).bump_sequence cid =
      some ({ st.clients.set_ping cid now with
                sequence := (st.clients.set_ping cid now).sequence.set_value
                  ((st.clients.set_ping cid now).map_internal cid) ((sq + 1) % 65536) },
            (sq + 1) % 65536) := by
    unfold ClientStorage.bump_sequence
    rw [hseq1]
  have haddr2 : ClientStorage.get_addr
      { st.clients.set_ping cid now with
          sequence := (st.clients.set_ping cid now).sequence.set_value
            ((st.clients.set_ping cid now).map_internal cid) ((sq + 1) % 65536) }
      cid = some raddr := haddr
  have hsend : Socket.send { st with clients := st.clients.set_ping cid now }
      ⟨cid, { Packet.new .Ping st.id with payload := PingPayload.encode ⟨ts, false⟩ }⟩ =
      ({ st with
          clients :=
            { st.clients.set_ping cid now with
                sequence := (st.clients.set_ping cid now).sequence.set_value
                  ((st.clients.set_ping cid now).map_internal cid) ((sq + 1) % 65536) },
          sent := st.sent ++
            [(raddr, ⟨.Ping, st.id, (sq + 1) % 65536,
                PingPayload.encode ⟨ts, false⟩⟩)] }, .ok ()) := by
    unfold Socket.send
    rw [if_neg (fun hcon => hid hcon.1)]
    rw [if_pos (Or.inr (by intro hcon; exact PacketLabel.noConfusion hcon))]
    simp only [hbump, haddr2]
    rfl
  have hpingact : st.packet_action_ping now pkt addr =
      ({ st with
          clients :=
            { st.clients.set_ping cid now with
                sequence := (st.clients.set_ping cid now).sequence.set_value
                  ((st.clients.set_ping cid now).map_internal cid) ((sq + 1) % 65536) },
          sent := st.sent ++
            [(raddr, ⟨.Ping, st.id, (sq + 1) % 65536,
                PingPayload.encode ⟨ts, false⟩⟩)] }, .ok ()) := by
    unfold Socket.packet_action_ping
    rw [hdec, hsrc]
    rw [if_pos (by rw [hping]; rfl)]
    exact hsend
  have hact : st.packet_actions now pkt addr =
      ({ st with
          clients :=
            { st.clients.set_ping cid now with
                sequence := (st.clients.set_ping cid now).sequence.set_value
                  ((st.clients.set_ping cid now).map_internal cid) ((sq + 1) % 65536) },
          sent := st.sent ++
            [(raddr, ⟨.Ping, st.id, (sq + 1) % 65536,
                PingPayload.encode ⟨ts, false⟩⟩)] }, .ok ()) := by
    unfold Socket.packet_actions
    rw [hlbl]
    show (match st.packet_action_ping now pkt addr with
      | (st1, .ok _) => (st1, Except.ok ())
      | (st1, .error err) =>
        match st1.handle_invalid_packet_err now err with
        | (st2, .error e2) => (st2, .error e2)
        | (st2, .ok _) => (st2, .error err)) = _
    rw [hpingact]
  refine ⟨{ st with
      clients :=
        { st.clients.set_ping cid now with
            sequence := (st.clients.set_ping cid now).sequence.set_value
              ((st.clients.set_ping cid now).map_internal cid) ((sq + 1) % 65536) },
      sent := st.sent ++
        [(raddr, ⟨.Ping, st.id, (sq + 1) % 65536,
            PingPayload.encode ⟨ts, false⟩⟩)] },
    ⟨.Ping, st.id, (sq + 1) % 65536, PingPayload.encode ⟨ts, false⟩⟩,
    ?_, ?_, rfl, rfl, rfl, rfl⟩
  · unfold Socket.recv_process
    rw [hval]
    show (match st.packet_actions now pkt addr with
      | (st2, .error e) => (st2, Except.error e)
      | (st2, .ok _) => (st2, Except.ok (some pkt))) = _
    rw [hact]
  · exact hping1

/-- Witness for claim C8 on a concrete server with one live client. -/
theorem C8_ping_echo_witness :
    ∃ (st' : Socket) (q : Packet),
      serverWith1.recv_process 200 (.Ip 7 70)
          ⟨.Ping, 1, 0, PingPayload.encode ⟨⟨10, 0⟩, true⟩⟩ =
        (st', .ok (some ⟨.Ping, 1, 0, PingPayload.encode ⟨⟨10, 0⟩, true⟩⟩)) ∧
      st'.clients.get_ping 1 = some 200 ∧
      st'.sent = serverWith1.sent ++ [((.Ip 7 70 : ClientAddr), q)] ∧
      q.label = .Ping ∧ q.source = serverWith1.id ∧
      q.payload = PingPayload.encode ⟨⟨10, 0⟩, false⟩ :=
  C8_ping_echo serverWith1 200 (.Ip 7 70) (.Ip 7 70) 1 1 100 ⟨10, 0⟩
    ⟨.Ping, 1, 0, PingPayload.encode ⟨⟨10, 0⟩, true⟩⟩
    (by decide) (by decide) (by decide) (by decide) (by decide) (by decide)
    (by decide) (by decide) (by decide) (by decide) (by decide) (by decide)
    (by decide)

/-! ### Claim C5: version-mismatch admission -/

theorem clientAddr_beq_refl (a : ClientAddr) : ClientAddr.beq a a = true := by
  cases a <;> simp [ClientAddr.beq]

theorem amap_get_insert_self {V : Type} (l : List (ClientAddr × V))
    (k : ClientAddr) (v : V) : amap.get (amap.insert l k v) k = some v := by
  simp [amap.insert, amap.get, clientAddr_beq_refl]

theorem map_internal_map_external (c : ClientStorage) (i : Nat) :
    c.map_internal (c.map_external i) = i := by
  unfold ClientStorage.map_internal ClientStorage.map_external
  omega

theorem add_pick_fields (c : ClientStorage) (addr : ClientAddr) :
    (c.add_pick addr).1.id_offset = c.id_offset ∧
    (c.add_pick addr).1.max_clients = c.max_clients ∧
    (c.add_pick addr).1.blacklist = c.blacklist ∧
    (c.add_pick addr).1.errors = c.errors ∧
    (c.add_pick addr).1.addr_id = c.addr_id ∧
    (c.add_pick addr).1.addr = c.addr := by
  unfold ClientStorage.add_pick
  cases hga : amap.get c.archive addr with
  | some p => exact ⟨rfl, rfl, rfl, rfl, rfl, rfl⟩
  | none =>
    cases hp : c.pool with
    | nil => exact ⟨rfl, rfl, rfl, rfl, rfl, rfl⟩
    | cons i rest => exact ⟨rfl, rfl, rfl, rfl, rfl, rfl⟩

theorem add_ok_fields (c : ClientStorage) (now : Nat) (addr : ClientAddr)
    (c1 : ClientStorage) (newId : Nat)
    (h : c.add now addr = (c1, .ok newId)) :
    c1.get_id addr = some newId ∧
    c1.blacklist = c.blacklist ∧ c1.errors = c.errors ∧
    c1.id_offset = c.id_offset := by
  unfold ClientStorage.add at h
  by_cases hb : c.is_blacklisted addr = true
  · rw [if_pos hb] at h
    simp at h
  · rw [if_neg hb] at h
    by_cases he : (amap.contains c.addr_id addr || amap.contains c.archive addr) = true
    · rw [if_pos he] at h
      simp at h
    · rw [if_neg he] at h
      unfold ClientStorage.add_finish at h
      by_cases hcap : (c.add_pick addr).2 ≥ (c.add_pick addr).1.max_clients ∧
          (c.add_pick addr).1.pool = []
      · rw [if_pos hcap] at h
        simp at h
      · rw [if_neg hcap] at h
        injection h with h1 h2
        injection h2 with h2
        obtain ⟨hoff, hmax, hbl, herr, haid, had⟩ := add_pick_fields c addr
        subst h1
        refine ⟨?_, hbl, herr, hoff⟩
        unfold ClientStorage.get_id ClientStorage.insert
        simp only [amap_get_insert_self, map_internal_map_external, Option.map_some']
        rw [← h2]
        rfl

theorem get_errors_client_err (c : ClientStorage) (now : Nat) (a : ClientAddr) :
    (c.client_err now a).get_errors a =
      some ((c.get_errors a).getD 0 + 1) := by
  unfold ClientStorage.client_err ClientStorage.get_errors
  cases hg : amap.get c.errors a with
  | none => simp [amap_get_insert_self]
  | some cts => simp [amap_get_insert_self]

theorem get_id_client_err (c : ClientStorage) (now : Nat) (a b : ClientAddr) :
    (c.client_err now a).get_id b = c.get_id b := by
  unfold ClientStorage.client_err
  cases amap.get c.errors a <;> rfl

/-- Claim C5 as frozen is false: on a fresh server, a `Connect` whose
`ConnectionPayload` carries version 2 is answered with an
`InvalidPacket` error of kind `Version`, but the sender's live client
record — created during validation, before the payload is examined —
is still present afterwards (`get_id` returns `some 1`, not `none`). -/
theorem C5_counterexample :
    ((sampleServer 2).recv_process 100 (.Ip 7 70)
        ⟨.Connect, ClientId.INVALID, 0, ConnectionPayload.encode ⟨2, 65535, 5000⟩⟩).2 =
      .error (.InvalidPacket (.Ip 7 70) .Version "packet version mismatch") ∧
    ((sampleServer 2).recv_process 100 (.Ip 7 70)
        ⟨.Connect, ClientId.INVALID, 0, ConnectionPayload.encode ⟨2, 65535, 5000⟩⟩).1.clients.get_id
      (.Ip 7 70) = some 1 := by
  decide


theorem handle_invalid_under_budget (st1 : Socket) (now : Nat)
    (addr : ClientAddr) (k : InvalidPacketError) (m : String)
    (hsrv : st1.is_server = true)
    (hblk : st1.clients.is_blacklisted addr = false)
    (hbudget : ¬ (st1.clients.get_errors addr).getD 0 + 1 > 5) :
    st1.handle_invalid_packet_err now (NetError.InvalidPacket addr k m) =
      ({ st1 with clients := st1.clients.client_err now addr }, .ok ()) := by
  unfold Socket.handle_invalid_packet_err
  simp only [hsrv, hblk, get_errors_client_err]
  simp [hbudget]

/-- Claim C5, amended: when a remote server that has not blacklisted the
sender receives a `Connect` with unassigned source whose
`ConnectionPayload` version differs from 1 — admission succeeding with
a fresh id and the sender's error budget not yet exhausted — the
receive returns an `InvalidPacket` error of kind `Version`, but the
live client record created for the sender during validation is NOT
rolled back: afterwards the sender's address still resolves to the
newly assigned id. -/
theorem C5_version_mismatch (st : Socket) (now : Nat) (addr : ClientAddr)
    (seq v cid tm : Nat) (c1 : ClientStorage) (newId : Nat)
    (hsrv : st.is_server = true)
    (hrem : st.is_remote = true)
    (hbl : st.clients.is_blacklisted addr = false)
    (hv1 : v < 256) (hv2 : cid < 65536) (hv3 : tm < 2 ^ 64)
    (hne : v ≠ Packet.CURRENT_VERSION)
    (hadd : st.clients.add now addr = (c1, .ok newId))
    (hbudget : ¬ (c1.get_errors addr).getD 0 + 1 > 5) :
    st.recv_process now addr
        ⟨.Connect, ClientId.INVALID, seq, ConnectionPayload.encode ⟨v, cid, tm⟩⟩ =
      ({ st with clients := c1.client_err now addr },
        .error (.InvalidPacket addr .Version "packet version mismatch")) ∧
    (c1.client_err now addr).get_id addr = some newId := by
  obtain ⟨hgid, hblc, herrc, hoffc⟩ := add_ok_fields st.clients now addr c1 newId hadd
  have hval : st.validate now addr
      ⟨.Connect, ClientId.INVALID, seq, ConnectionPayload.encode ⟨v, cid, tm⟩⟩ =
      ({ st with clients := c1 },
        .ok ⟨.Connect, newId, seq, ConnectionPayload.encode ⟨v, cid, tm⟩⟩) := by
    unfold Socket.validate
    rw [if_neg (by simp [hbl])]
    rw [if_pos rfl]
    unfold Socket.validate_invalid_client
    rw [if_pos rfl]
    rw [if_pos hrem]
    unfold Socket.add_client
    rw [hadd]
  have hdec : ConnectionPayload.decode (ConnectionPayload.encode ⟨v, cid, tm⟩) =
      .ok (⟨v, cid, tm⟩, 11) :=
    connectionPayload_decode_encode ⟨v, cid, tm⟩ hv1 hv2 hv3
  have hconn2 : ({ st with clients := c1 } : Socket).packet_action_connection now
      ⟨.Connect, newId, seq, ConnectionPayload.encode ⟨v, cid, tm⟩⟩ addr =
      ({ st with clients := c1 },
        .error (.InvalidPacket addr .Version "packet version mismatch")) := by
    unfold Socket.packet_action_connection
    simp only [hdec]
    simp [hne]
  have hhandle : Socket.handle_invalid_packet_err { st with clients := c1 } now
      (NetError.InvalidPacket addr InvalidPacketError.Version
        "packet version mismatch") =
      ({ st with clients := c1.client_err now addr }, .ok ()) :=
    handle_invalid_under_budget { st with clients := c1 } now addr
      InvalidPacketError.Version "packet version mismatch" hsrv
      (by simpa [ClientStorage.is_blacklisted, hblc] using hbl) hbudget
  have hact : ({ st with clients := c1 } : Socket).packet_actions now
      ⟨.Connect, newId, seq, ConnectionPayload.encode ⟨v, cid, tm⟩⟩ addr =
      ({ st with clients := c1.client_err now addr },
        .error (.InvalidPacket addr .Version "packet version mismatch")) := by
    unfold Socket.packet_actions
    simp only [hconn2, hhandle]
  refine ⟨?_, ?_⟩
  · unfold Socket.recv_process
    rw [hval]
    simp only [hact]
  · rw [get_id_client_err]
    exact hgid

/-- Witness for claim C5's amended theorem on a fresh two-slot server
and a version-2 `Connect` from `Ip 7 70`. -/
theorem C5_version_mismatch_witness :
    (sampleServer 2).recv_process 100 (.Ip 7 70)
        ⟨.Connect, ClientId.INVALID, 0, ConnectionPayload.encode ⟨2, 65535, 5000⟩⟩ =
      ({ sampleServer 2 with clients :=
          (((sampleServer 2).clients.add 100 (.Ip 7 70)).1.client_err 100 (.Ip 7 70)) },
        .error (.InvalidPacket (.Ip 7 70) .Version "packet version mismatch")) ∧
    ((((sampleServer 2).clients.add 100 (.Ip 7 70)).1).client_err 100
        (.Ip 7 70)).get_id (.Ip 7 70) = some 1 :=
  C5_version_mismatch (sampleServer 2) 100 (.Ip 7 70) 0 2 65535 5000
    (((sampleServer 2).clients.add 100 (.Ip 7 70)).1) 1
    (by decide) (by decide) (by decide) (by decide) (by decide) (by decide)
    (by decide) (by decide) (by decide)

theorem amap_contains_insert_self {V : Type} (l : List (ClientAddr × V))
    (k : ClientAddr) (v : V) : amap.contains (amap.insert l k v) k = true := by
  simp [amap.contains, amap_get_insert_self]

theorem client_err_addr_id (c : ClientStorage) (now : Nat) (a : ClientAddr) :
    (c.client_err now a).addr_id = c.addr_id := by
  unfold ClientStorage.client_err
  cases amap.get c.errors a <;> rfl

theorem client_err_archive (c : ClientStorage) (now : Nat) (a : ClientAddr) :
    (c.client_err now a).archive = c.archive := by
  unfold ClientStorage.client_err
  cases amap.get c.errors a <;> rfl

/-- Claim C4 as frozen is false in its last conjunct: on `blkServer`
(six `InvalidPacket` errors charged to `Ip 5 50`) the address is
blacklisted, but a subsequent well-formed `Connect` from it is answered
with nothing at all — `recv` returns `NothingToDo` with the state (and
in particular the transport log, still empty) unchanged, not with an
`Error` packet carrying `Blacklisted`. -/
theorem C4_counterexample :
    blkServer.clients.is_blacklisted (.Ip 5 50) = true ∧
    blkServer.recv_process 60 (.Ip 5 50) connReq = (blkServer, .error .NothingToDo) ∧
    blkServer.sent = [] := by
  decide

theorem nth_some_lt {α : Type} (l : List α) (i : Nat) (a : α)
    (h : nth l i = some a) : i < l.length := by
  induction l generalizing i with
  | nil => simp [nth] at h
  | cons b m ih =>
    cases i with
    | zero => simp
    | succ n => simpa using ih n h

theorem nth_ge_length {α : Type} (l : List α) (i : Nat) (h : l.length ≤ i) :
    nth l i = none := by
  induction l generalizing i with
  | nil => rfl
  | cons b m ih =>
    cases i with
    | zero => simp at h
    | succ n => exact ih n (by simpa using h)

theorem nth_dropLast {α : Type} (l : List α) (i : Nat) (h : i + 1 < l.length) :
    nth l.dropLast i = nth l i := by
  induction l generalizing i with
  | nil => simp at h
  | cons a l ih =>
    cases l with
    | nil => simp at h
    | cons b m =>
      cases i with
      | zero => rfl
      | succ n =>
        show nth (b :: m).dropLast n = nth (b :: m) n
        exact ih n (by simpa using h)

theorem nthD_setNth_self {α : Type} (l : List α) (i : Nat) (x d : α)
    (h : i < l.length) : nthD (setNth l i x) i d = x := by
  simp [nthD, nth_setNth_self l i x h]

theorem nthD_setNth_ne {α : Type} (l : List α) (i j : Nat) (x d : α)
    (h : i ≠ j) : nthD (setNth l i x) j d = nthD l j d := by
  simp [nthD, nth_setNth_ne l i j x h]

theorem SSWF_length_le {T : Type} (s : SparseSet T) (h : SSWF s) :
    s.dense.length ≤ s.max_capacity := by
  obtain ⟨h1, h2, h3, h4⟩ := h
  have hmap : ∀ i ∈ Finset.range s.dense.length,
      ((nth s.dense i).map Entry.key).getD 0 ∈ Finset.range s.max_capacity := by
    intro i hi
    rw [Finset.mem_range] at hi
    obtain ⟨e, he⟩ := nth_lt_length s.dense i hi
    rw [he]
    simpa using (h3 i e he).1
  have hinj : ∀ i ∈ Finset.range s.dense.length,
      ∀ j ∈ Finset.range s.dense.length,
      ((nth s.dense i).map Entry.key).getD 0 =
        ((nth s.dense j).map Entry.key).getD 0 → i = j := by
    intro i hi j hj hij
    rw [Finset.mem_range] at hi hj
    obtain ⟨e, he⟩ := nth_lt_length s.dense i hi
    obtain ⟨f, hf⟩ := nth_lt_length s.dense j hj
    rw [he, hf] at hij
    simp at hij
    have h3i := (h3 i e he).2
    have h3j := (h3 j f hf).2
    rw [← h3i, ← h3j, hij]
  have := Finset.card_le_card_of_injOn _ hmap hinj
  simpa using this

theorem get_dense_idx_none_ge {T : Type} (s : SparseSet T) (k : Nat)
    (hk : k < s.max_capacity) (h : (s.get_dense_idx k).isSome = false) :
    s.dense.length ≤ nthD s.sparse k s.invalid_key := by
  unfold SparseSet.get_dense_idx at h
  rw [if_neg (by omega)] at h
  by_cases hlt : nthD s.sparse k s.invalid_key < s.dense.length
  · rw [if_pos hlt] at h
    simp at h
  · omega

theorem SSWF_set_value {T : Type} (s : SparseSet T) (k : Nat) (v : T)
    (h : SSWF s) : SSWF (s.set_value k v) := by
  cases hgd : s.get_dense_idx k with
  | none =>
    unfold SparseSet.set_value
    rw [hgd]
    exact h
  | some d =>
    cases hne : nth s.dense d with
    | none =>
      unfold SparseSet.set_value
      rw [hgd]
      simp only [hne]
      exact h
    | some e =>
      have hsv : s.set_value k v =
          { s with dense := setNth s.dense d ⟨e.key, v⟩ } := by
        unfold SparseSet.set_value
        rw [hgd]
        simp only [hne]
      rw [hsv]
      obtain ⟨h1, h2, h3, h4⟩ := h
      obtain ⟨hdlt, hkc, hsd⟩ := get_dense_idx_spec s k d hgd
      refine ⟨h1, h2, ?_, ?_⟩
      · intro i e' hie
        by_cases hid : i = d
        · subst hid
          rw [nth_setNth_self _ _ _ hdlt] at hie
          cases hie
          exact h3 i e hne
        · rw [nth_setNth_ne _ _ _ _ (fun hh => hid hh.symm)] at hie
          exact h3 i e' hie
      · intro j hj
        rcases h4 j hj with hinv | ⟨e', he', hk'⟩
        · left
          exact hinv
        · right
          by_cases hd2 : nthD s.sparse j s.invalid_key = d
        
          · refine ⟨⟨e.key, v⟩, ?_, ?_⟩
            · rw [hd2]
              exact nth_setNth_self _ _ _ hdlt
            · rw [hd2] at he'
              rw [he'] at hne
              cases hne
              exact hk'
          · refine ⟨e', ?_, hk'⟩
            rw [nth_setNth_ne _ _ _ _ (fun hh => hd2 (by rw [hh]))]
            exact he'

theorem SSWF_insert {T : Type} (s : SparseSet T) (k : Nat) (v : T)
    (h : SSWF s) : SSWF (s.insert k v) := by
  unfold SparseSet.insert
  by_cases hk : k < s.max_capacity
  · rw [if_pos hk]
    by_cases hh : (s.get_dense_idx k).isSome = true
    · rw [if_pos hh]
      exact SSWF_set_value s k v h
    · rw [if_neg hh]
      have hsk : s.dense.length ≤ nthD s.sparse k s.invalid_key :=
        get_dense_idx_none_ge s k hk (by simpa using hh)
      obtain ⟨h1, h2, h3, h4⟩ := h
      refine ⟨?_, h2, ?_, ?_⟩
      · rw [length_setNth]
        exact h1
      · intro i e' hie
        by_cases hilt : i < s.dense.length
        · rw [nth_append_left _ _ _ hilt] at hie
          obtain ⟨hkey, hsl⟩ := h3 i e' hie
          have hkk : e'.key ≠ k := by
            intro hkk
            rw [hkk] at hsl
            omega
          refine ⟨hkey, ?_⟩
          rw [nthD_setNth_ne _ _ _ _ _ (fun hh => hkk hh.symm)]
          exact hsl
        · have hieq : i = s.dense.length := by
            by_contra hne2
            have : (s.dense ++ [(⟨k, v⟩ : Entry T)]).length ≤ i := by
              simp
              omega
            rw [nth_ge_length _ _ this] at hie
            cases hie
          subst hieq
          rw [nth_append_self_length] at hie
          cases hie
          refine ⟨hk, ?_⟩
          rw [nthD_setNth_self _ _ _ _ (by rw [h1]; exact hk)]
      · intro j hj
        by_cases hjk : j = k
        · subst hjk
          right
          rw [nthD_setNth_self _ _ _ _ (by rw [h1]; exact hj)]
          exact ⟨⟨j, v⟩, nth_append_self_length _ _, rfl⟩
        · rw [nthD_setNth_ne _ _ _ _ _ (fun hh => hjk hh.symm)]
          rcases h4 j hj with hinv | ⟨e', he', hk'⟩
          · left
            exact hinv
          · right
            refine ⟨e', ?_, hk'⟩
            rw [nth_append_left _ _ _ (nth_some_lt _ _ _ he')]
            exact he'
  · rw [if_neg hk]
    exact h

theorem SSWF_swap_core {T : Type} (s : SparseSet T) (k d : Nat)
    (elast dflt : Entry T) (h : SSWF s)
    (hk : k < s.max_capacity)
    (hd : nthD s.sparse k s.invalid_key = d)
    (hdlt : d < s.dense.length)
    (hel : nthD s.dense (s.dense.length - 1) dflt = elast) :
    SSWF { s with
      dense := (setNth s.dense d elast).dropLast,
      sparse := setNth
        (if d < ((setNth s.dense d elast).dropLast).length
         then setNth s.sparse
           (nthD ((setNth s.dense d elast).dropLast) d dflt).key d
         else s.sparse) k s.invalid_key } := by
  obtain ⟨h1, h2, h3, h4⟩ := h
  have hlc : s.dense.length ≤ s.max_capacity := SSWF_length_le s ⟨h1, h2, h3, h4⟩
  have hel' : nth s.dense (s.dense.length - 1) = some elast := by
    obtain ⟨a, ha⟩ := nth_lt_length s.dense (s.dense.length - 1) (by omega)
    rw [ha, ← hel]
    simp [nthD, ha]
  obtain ⟨helk, hels⟩ := h3 (s.dense.length - 1) elast hel'
  have hek : ∃ ek, nth s.dense d = some ek ∧ ek.key = k := by
    rcases h4 k hk with hinv | he
    · rw [hd] at hinv
      omega
    · rw [hd] at he
      exact he
  obtain ⟨ek, hekd, hekk⟩ := hek
  set de1 := (setNth s.dense d elast).dropLast with hde1
  have hlen1 : de1.length = s.dense.length - 1 := by
    rw [hde1]
    simp [length_setNth]
  have hnth1 : ∀ i, i < s.dense.length - 1 →
      nth de1 i = if i = d then some elast else nth s.dense i := by
    intro i hi
    rw [hde1, nth_dropLast _ _ (by rw [length_setNth]; omega)]
    by_cases hid : i = d
    · rw [if_pos hid, hid, nth_setNth_self _ _ _ hdlt]
    · rw [if_neg hid, nth_setNth_ne _ _ _ _ (fun hh => hid hh.symm)]
  set sp1 := (if d < de1.length then
      setNth s.sparse (nthD de1 d dflt).key d else s.sparse) with hsp1
  have hsp1len : sp1.length = s.max_capacity := by
    rw [hsp1]
    by_cases hdl : d < de1.length
    · rw [if_pos hdl, length_setNth]
      exact h1
    · rw [if_neg hdl]
      exact h1
  have hmv : d < de1.length → nth de1 d = some elast := by
    intro hdl
    have hdl' : d < s.dense.length - 1 := by
      rw [hlen1] at hdl
      exact hdl
    rw [hnth1 d hdl', if_pos rfl]
  have hmvk : d < de1.length → (nthD de1 d dflt).key = elast.key := by
    intro hdl
    simp [nthD, hmv hdl]
  refine ⟨?_, h2, ?_, ?_⟩
  · rw [length_setNth]
    exact hsp1len
  · intro i e hie
    have hie' : nth de1 i = some e := hie
    show e.key < s.max_capacity ∧
      nthD (setNth sp1 k s.invalid_key) e.key s.invalid_key = i
    have hi : i < s.dense.length - 1 := by
      have hsl := nth_some_lt _ _ _ hie'
      rw [hlen1] at hsl
      exact hsl
    rw [hnth1 i hi] at hie'
    by_cases hid : i = d
    · rw [if_pos hid] at hie'
      injection hie' with hie2
      subst hie2
      have hkne : elast.key ≠ k := by
        intro hkk
        rw [hkk] at hels
        omega
      refine ⟨helk, ?_⟩
      rw [nthD_setNth_ne _ _ _ _ _ (fun hh => hkne hh.symm)]
      rw [hsp1, if_pos (by rw [hlen1]; omega), hmvk (by rw [hlen1]; omega)]
      rw [nthD_setNth_self _ _ _ _ (by rw [h1]; exact helk)]
      omega
    · rw [if_neg hid] at hie'
      obtain ⟨hkey, hsl⟩ := h3 i e hie'
      have hkne : e.key ≠ k := by
        intro hkk
        rw [hkk, hd] at hsl
        exact hid hsl.symm
      refine ⟨hkey, ?_⟩
      rw [nthD_setNth_ne _ _ _ _ _ (fun hh => hkne hh.symm)]
      rw [hsp1]
      by_cases hdl : d < de1.length
      · rw [if_pos hdl, hmvk hdl]
        have hkne2 : elast.key ≠ e.key := by
          intro hkk
          rw [← hkk] at hsl
          omega
        rw [nthD_setNth_ne _ _ _ _ _ hkne2]
        exact hsl
      · rw [if_neg hdl]
        exact hsl
  · intro j hj
    have hj' : j < s.max_capacity := hj
    show nthD (setNth sp1 k s.invalid_key) j s.invalid_key = s.invalid_key ∨
      ∃ e, nth de1 (nthD (setNth sp1 k s.invalid_key) j s.invalid_key) = some e ∧
        e.key = j
    by_cases hjk : j = k
    · left
      rw [hjk, nthD_setNth_self _ _ _ _ (by rw [hsp1len]; exact hk)]
    · rw [nthD_setNth_ne _ _ _ _ _ (fun hh => hjk hh.symm)]
      rw [hsp1]
      by_cases hdl : d < de1.length
      · rw [if_pos hdl, hmvk hdl]
        by_cases hje : j = elast.key
        · right
          rw [hje, nthD_setNth_self _ _ _ _ (by rw [h1]; exact helk)]
          exact ⟨elast, hmv hdl, rfl⟩
        · rw [nthD_setNth_ne _ _ _ _ _ (fun hh => hje hh.symm)]
          rcases h4 j hj' with hinv | ⟨e, he, hke⟩
          · left
            exact hinv
          · right
            have hm := nth_some_lt _ _ _ he
            have hmd : nthD s.sparse j s.invalid_key ≠ d := by
              intro hh
              rw [hh, hekd] at he
              injection he with he2
              rw [he2] at hekk
              exact hjk (hke.symm.trans hekk)
            have hml : nthD s.sparse j s.invalid_key ≠ s.dense.length - 1 := by
              intro hh
              rw [hh, hel'] at he
              injection he with he2
              rw [← he2] at hke
              exact hje hke.symm
            refine ⟨e, ?_, hke⟩
            rw [hnth1 _ (by omega), if_neg hmd]
            exact he
      · rw [if_neg hdl]
        have hdeq : d = s.dense.length - 1 := by
          rw [hlen1] at hdl
          omega
        rcases h4 j hj' with hinv | ⟨e, he, hke⟩
        · left
          exact hinv
        · right
          have hm := nth_some_lt _ _ _ he
          have hmd : nthD s.sparse j s.invalid_key ≠ d := by
            intro hh
            rw [hh, hekd] at he
            injection he with he2
            rw [he2] at hekk
            exact hjk (hke.symm.trans hekk)
          refine ⟨e, ?_, hke⟩
          rw [hnth1 _ (by omega), if_neg hmd]
          exact he

theorem SSWF_remove {T : Type} [Inhabited T] (s : SparseSet T) (k : Nat)
    (h : SSWF s) : SSWF (s.remove k).1 := by
  unfold SparseSet.remove
  by_cases hh : s.has_key k = true
  · rw [if_pos hh]
    have hgd : ∃ d, s.get_dense_idx k = some d := by
      unfold SparseSet.has_key at hh
      cases hx : s.get_dense_idx k with
      | none =>
        rw [hx] at hh
        simp at hh
      | some d => exact ⟨d, rfl⟩
    obtain ⟨d, hx⟩ := hgd
    obtain ⟨hdlt, hkc, hsd⟩ := get_dense_idx_spec s k d hx
    exact SSWF_swap_core s k (nthD s.sparse k s.invalid_key)
      (nthD s.dense (s.dense.length - 1) ⟨s.invalid_key, default⟩)
      ⟨s.invalid_key, default⟩ h hkc rfl (by rw [hsd]; exact hdlt) rfl
  · rw [if_neg hh]
    exact h

theorem set_value_max_capacity {T : Type} (s : SparseSet T) (k : Nat) (v : T) :
    (s.set_value k v).max_capacity = s.max_capacity := by
  unfold SparseSet.set_value
  cases s.get_dense_idx k with
  | none => rfl
  | some d =>
    show (match nth s.dense d with
      | some e => { s with dense := setNth s.dense d { key := e.key, value := v } }
      | none => s).max_capacity = s.max_capacity
    cases nth s.dense d with
    | none => rfl
    | some e => rfl

theorem insert_max_capacity {T : Type} (s : SparseSet T) (k : Nat) (v : T) :
    (s.insert k v).max_capacity = s.max_capacity := by
  unfold SparseSet.insert
  by_cases hk : k < s.max_capacity
  · rw [if_pos hk]
    by_cases hh : (s.get_dense_idx k).isSome = true
    · rw [if_pos hh]
      exact set_value_max_capacity s k v
    · rw [if_neg hh]
  · rw [if_neg hk]

theorem remove_max_capacity {T : Type} [Inhabited T] (s : SparseSet T)
    (k : Nat) : ((s.remove k).1).max_capacity = s.max_capacity := by
  unfold SparseSet.remove
  by_cases hh : s.has_key k = true
  · rw [if_pos hh]
  · rw [if_neg hh]

theorem SInv_insert (N : Nat) (c : ClientStorage) (now id : Nat)
    (a : ClientAddr) (h : SInv N c) : SInv N (c.insert now id a) := by
  obtain ⟨h1, h2, h3⟩ := h
  exact ⟨SSWF_insert _ _ _ h1,
    (insert_max_capacity _ _ _).trans h2, h3⟩

theorem SInv_remove (N : Nat) (c : ClientStorage) (id : Nat)
    (h : SInv N c) : SInv N (c.remove id).1 := by
  obtain ⟨h1, h2, h3⟩ := h
  unfold ClientStorage.remove
  cases hr : c.addr.remove (c.map_internal id) with
  | mk a o =>
    have h1' : SSWF a := by
      have hh := SSWF_remove c.addr (c.map_internal id) h1
      rw [hr] at hh
      exact hh
    have h2' : a.max_capacity = N := by
      have hh := remove_max_capacity c.addr (c.map_internal id)
      rw [hr] at hh
      exact hh.trans h2
    cases o with
    | some addr => exact ⟨h1', h2', h3⟩
    | none => exact ⟨h1, h2, h3⟩

theorem SInv_client_err (N : Nat) (c : ClientStorage) (now : Nat)
    (a : ClientAddr) (h : SInv N c) : SInv N (c.client_err now a) := by
  unfold ClientStorage.client_err
  cases amap.get c.errors a with
  | none => exact h
  | some cts => exact h

theorem SInv_archive_client (N : Nat) (c : ClientStorage) (now id : Nat)
    (h : SInv N c) : SInv N (c.archive_client now id) := by
  unfold ClientStorage.archive_client
  cases hr : c.remove id with
  | mk s1 o =>
    have h1 : SInv N s1 := by
      have hh := SInv_remove N c id h
      rw [hr] at hh
      exact hh
    cases o with
    | some addr => exact h1
    | none => exact h1

theorem SInv_blacklist_client (N : Nat) (c : ClientStorage) (now id : Nat)
    (addr : ClientAddr) (h : SInv N c) :
    SInv N (c.blacklist_client now id addr) := by
  unfold ClientStorage.blacklist_client
  cases hr : c.remove id with
  | mk s1 o =>
    have h1 : SInv N s1 := by
      have hh := SInv_remove N c id h
      rw [hr] at hh
      exact hh
    cases o with
    | some a => exact h1
    | none =>
      show SInv N (if (amap.get s1.archive addr).isSome = true then
          { s1 with archive := amap.erase s1.archive addr,
                    blacklist := amap.insert s1.blacklist addr now,
                    pool := s1.map_internal id :: s1.pool }
        else s1)
      by_cases hc : (amap.get s1.archive addr).isSome = true
      · rw [if_pos hc]
        exact h1
      · rw [if_neg hc]
        exact h1

theorem SInv_blacklist_client_addr (N : Nat) (c : ClientStorage) (now : Nat)
    (addr : ClientAddr) (h : SInv N c) :
    SInv N (c.blacklist_client_addr now addr) := by
  unfold ClientStorage.blacklist_client_addr
  cases amap.get c.addr_id addr with
  | some i => exact SInv_blacklist_client N c now _ addr h
  | none =>
    cases amap.get c.archive addr with
    | some p => exact SInv_blacklist_client N c now _ addr h
    | none => exact h

theorem SInv_add_pick (N : Nat) (c : ClientStorage) (a : ClientAddr)
    (h : SInv N c) : SInv N (c.add_pick a).1 := by
  unfold ClientStorage.add_pick
  cases amap.get c.archive a with
  | some p => exact h
  | none =>
    cases c.pool with
    | nil => exact h
    | cons i rest => exact h

theorem SInv_add_finish (N : Nat) (pr : ClientStorage × Nat) (now : Nat)
    (a : ClientAddr) (h : SInv N pr.1) :
    SInv N (ClientStorage.add_finish pr now a).1 := by
  unfold ClientStorage.add_finish
  by_cases hc : pr.2 ≥ pr.1.max_clients ∧ pr.1.pool = []
  · rw [if_pos hc]
    exact h
  · rw [if_neg hc]
    exact SInv_insert N pr.1 now _ a h

theorem SInv_add (N : Nat) (c : ClientStorage) (now : Nat) (a : ClientAddr)
    (h : SInv N c) : SInv N (c.add now a).1 := by
  unfold ClientStorage.add
  by_cases hb : c.is_blacklisted a = true
  · rw [if_pos hb]
    exact h
  · rw [if_neg hb]
    by_cases he : (amap.contains c.addr_id a || amap.contains c.archive a) = true
    · rw [if_pos he]
      exact h
    · rw [if_neg he]
      exact SInv_add_finish N (c.add_pick a) now a (SInv_add_pick N c a h)

theorem SInv_bump (N : Nat) (c : ClientStorage) (id : Nat)
    (cv : ClientStorage × Nat) (h : SInv N c)
    (hb : c.bump_sequence id = some cv) : SInv N cv.1 := by
  unfold ClientStorage.bump_sequence at hb
  cases hs : c.get_sequence id with
  | none =>
    rw [hs] at hb
    cases hb
  | some seq =>
    rw [hs] at hb
    injection hb with hb2
    rw [← hb2]
    exact h

theorem ServerInv_send_err (N : Nat) (st : Socket) (dest : ClientAddr)
    (e : ErrorPacket) (msg : List Nat) (h : ServerInv N st) :
    ServerInv N (st.send_err dest e msg) := by
  obtain ⟨ha, hr, hc⟩ := h
  unfold Socket.send_err
  split
  next client_id heq =>
    split
    next cv heq2 =>
      exact ⟨ha, hr, SInv_bump N st.clients client_id cv hc heq2⟩
    next heq2 => exact ⟨ha, hr, hc⟩
  next heq => exact ⟨ha, hr, hc⟩

theorem ServerInv_send (N : Nat) (st : Socket) (d : Deliverable)
    (h : ServerInv N st) : ServerInv N (st.send d).1 := by
  obtain ⟨ha, hr, hc⟩ := h
  unfold Socket.send
  dsimp only
  split
  · exact ⟨ha, hr, hc⟩
  · split
    next e heq => exact ⟨ha, hr, hc⟩
    next c packet heq =>
      have hcc : SInv N c := by
        split at heq
        · split at heq
          next cv heq2 =>
            injection heq with h3
            have h4 : cv.1 = c := congrArg Prod.fst h3
            rw [← h4]
            exact SInv_bump N st.clients d.dest cv hc heq2
          next heq2 => simp at heq
        · injection heq with h3
          have h4 : st.clients = c := congrArg Prod.fst h3
          rw [← h4]
          exact hc
      split
      next a heq3 => exact ⟨ha, hr, hcc⟩
      next heq3 =>
        split
        next a heq4 => exact ⟨ha, hr, hcc⟩
        next heq4 => exact ⟨ha, hr, hcc⟩

theorem ServerInv_add_client (N : Nat) (st : Socket) (now : Nat)
    (a : ClientAddr) (h : ServerInv N st) :
    ServerInv N (st.add_client now a).1 := by
  obtain ⟨ha, hr, hc⟩ := h
  unfold Socket.add_client
  cases hadd : st.clients.add now a with
  | mk c r =>
    have hcc : SInv N c := by
      have hh := SInv_add N st.clients now a hc
      rw [hadd] at hh
      exact hh
    cases r with
    | ok id => exact ⟨ha, hr, hcc⟩
    | error e =>
      cases e with
      | AtCapacity =>
        exact ServerInv_send_err N { st with clients := c } a
          .TooManyConnections msgAtCapacity ⟨ha, hr, hcc⟩
      | ClientExists =>
        exact ServerInv_send_err N { st with clients := c } a
          .TooManyConnections msgOneConnection ⟨ha, hr, hcc⟩
      | TimedOut =>
        exact ServerInv_send_err N { st with clients := c } a
          .Blacklisted msgBlacklistedAddr ⟨ha, hr, hcc⟩
      | OffsetOverflow => exact ⟨ha, hr, hcc⟩
      | InvalidClientIdCollision => exact ⟨ha, hr, hcc⟩

theorem ServerInv_queue_removal (N : Nat) (st : Socket) (now id : Nat)
    (h : ServerInv N st) : ServerInv N (st.queue_removal now id) :=
  ⟨h.1, h.2.1, SInv_archive_client N st.clients now id h.2.2⟩

theorem ServerInv_disconnect (N : Nat) (st : Socket) (now id : Nat)
    (notify : Bool) (h : ServerInv N st) :
    ServerInv N (st.disconnect_client now id notify).1 := by
  unfold Socket.disconnect_client
  split
  · exact h
  · split
    · cases hs : st.send ⟨id, Packet.new .Disconnect st.id⟩ with
      | mk st1 r =>
        have h1 : ServerInv N st1 := by
          have hh := ServerInv_send N st ⟨id, Packet.new .Disconnect st.id⟩ h
          rw [hs] at hh
          exact hh
        cases r with
        | error e => exact h1
        | ok u => exact ServerInv_queue_removal N st1 now id h1
    · exact ServerInv_queue_removal N st now id h

theorem ServerInv_handle_invalid (N : Nat) (st : Socket) (now : Nat)
    (err : NetError) (h : ServerInv N st) :
    ServerInv N (st.handle_invalid_packet_err now err).1 := by
  cases err with
  | InvalidPacket addr k m =>
    simp only [Socket.handle_invalid_packet_err]
    have hce : SInv N (st.clients.client_err now addr) :=
      SInv_client_err N st.clients now addr h.2.2
    split
    · exact h
    · split
      · exact h
      · split
        next n heq =>
          split
          · split
            next cid heq2 =>
              have h2 : ServerInv N ({ st with
                  clients := st.clients.client_err now addr } : Socket) :=
                ⟨h.1, h.2.1, hce⟩
              have h3 := ServerInv_disconnect N
                { st with clients := st.clients.client_err now addr } now cid false h2
              exact ⟨h3.1, h3.2.1,
                SInv_blacklist_client_addr N _ now addr h3.2.2⟩
            next heq2 =>
              exact ⟨h.1, h.2.1, SInv_blacklist_client_addr N _ now addr hce⟩
          · exact ⟨h.1, h.2.1, hce⟩
        next heq => exact ⟨h.1, h.2.1, hce⟩
  | NotConnected a => exact h
  | NothingToDo => exact h
  | Disconnected => exact h
  | SocketError m => exact h
  | StorageError m => exact h
  | NetCode m => exact h

theorem ServerInv_validate_invalid_client (N : Nat) (st : Socket) (now : Nat)
    (sender : ClientAddr) (packet : Packet) (h : ServerInv N st) :
    ServerInv N (st.validate_invalid_client now sender packet).1 := by
  unfold Socket.validate_invalid_client
  split
  · cases hs : (if st.is_remote = true then st.add_client now sender
        else st.add_client now (.Local (st.clients.next_id))) with
    | mk st1 r =>
      have h1 : ServerInv N st1 := by
        by_cases hrem : st.is_remote = true
        · rw [if_pos hrem] at hs
          have hh := ServerInv_add_client N st now sender h
          rw [hs] at hh
          exact hh
        · rw [if_neg hrem] at hs
          have hh := ServerInv_add_client N st now (.Local (st.clients.next_id)) h
          rw [hs] at hh
          exact hh
      cases r with
      | ok cache_id => exact h1
      | error e => exact h1
  · split
    next id heq => exact h
    next heq => exact h

theorem ServerInv_validate (N : Nat) (st : Socket) (now : Nat)
    (sender : ClientAddr) (packet : Packet) (h : ServerInv N st) :
    ServerInv N (st.validate now sender packet).1 := by
  unfold Socket.validate
  split
  · exact h
  · split
    · exact ServerInv_validate_invalid_client N st now sender packet h
    · split
      · split
        next u heq => exact h
        next e heq => exact h
      · exact h

theorem ServerInv_packet_action_connection (N : Nat) (st : Socket) (now : Nat)
    (packet : Packet) (addr : ClientAddr) (h : ServerInv N st) :
    ServerInv N (st.packet_action_connection now packet addr).1 := by
  unfold Socket.packet_action_connection
  split
  next e heq => exact h
  next cp heq =>
    split
    · exact h
    · split
      · exact ServerInv_send N st _ h
      · exact ⟨h.1, h.2.1, SInv_insert N st.clients now packet.source addr h.2.2⟩

theorem ServerInv_packet_action_disconnection (N : Nat) (st : Socket)
    (now : Nat) (packet : Packet) (h : ServerInv N st) :
    ServerInv N (st.packet_action_disconnection now packet).1 :=
  ServerInv_queue_removal N st now packet.source h

theorem ServerInv_packet_action_ping (N : Nat) (st : Socket) (now : Nat)
    (packet : Packet) (addr : ClientAddr) (h : ServerInv N st) :
    ServerInv N (st.packet_action_ping now packet addr).1 := by
  unfold Socket.packet_action_ping
  split
  next e heq => exact h
  next pp heq =>
    have key : ∀ st1 : Socket, ServerInv N st1 →
        ServerInv N ((if pp.1.f1 = true then
          st1.send ⟨packet.source,
            { Packet.new .Ping st1.id with
              payload := PingPayload.encode ⟨pp.1.f0, false⟩ }⟩
        else (st1, Except.ok ())) : Socket × Except NetError Unit).1 := by
      intro st1 h1
      split
      · exact ServerInv_send N st1 _ h1
      · exact h1
    exact key (if (st.clients.get_ping packet.source).isSome = true
        then { st with clients := st.clients.set_ping packet.source now } else st)
      (by
        split
        · exact ⟨h.1, h.2.1, h.2.2⟩
        · exact h)

theorem ServerInv_packet_actions_errors (N : Nat) (st : Socket)
    (packet : Packet) (addr : ClientAddr) (h : ServerInv N st) :
    ServerInv N (st.packet_actions_errors packet addr).1 := by
  unfold Socket.packet_actions_errors
  split
  · exact h
  · split
    next e heq => exact h
    next ep heq =>
      split
      · exact h
      · exact h
      · exact h

theorem ServerInv_err_dispatch (N : Nat) (now : Nat)
    (r : Socket × Except NetError Unit) :
    ServerInv N r.1 →
    ServerInv N ((match r with
      | (st1, .ok _) => (st1, Except.ok ())
      | (st1, .error err) =>
        match st1.handle_invalid_packet_err now err with
        | (st2, .error e2) => (st2, Except.error e2)
        | (st2, .ok _) => (st2, Except.error err)) :
      Socket × Except NetError Unit).1 := by
  intro h
  cases r with
  | mk st1 x =>
    cases x with
    | ok u => exact h
    | error err =>
      show ServerInv N ((match st1.handle_invalid_packet_err now err with
        | (st2, .error e2) => (st2, Except.error e2)
        | (st2, .ok _) => (st2, Except.error err)) :
          Socket × Except NetError Unit).1
      cases hh : st1.handle_invalid_packet_err now err with
      | mk st2 y =>
        have h2 : ServerInv N st2 := by
          have hx := ServerInv_handle_invalid N st1 now err h
          rw [hh] at hx
          exact hx
        cases y with
        | ok u => exact h2
        | error e2 => exact h2

theorem ServerInv_packet_actions (N : Nat) (st : Socket) (now : Nat)
    (packet : Packet) (addr : ClientAddr) (h : ServerInv N st) :
    ServerInv N (st.packet_actions now packet addr).1 := by
  have hr1 : ServerInv N ((match packet.label with
      | .Connect => st.packet_action_connection now packet addr
      | .Disconnect => st.packet_action_disconnection now packet
      | .Ping => st.packet_action_ping now packet addr
      | .Error => st.packet_actions_errors packet addr
      | _ => (st, Except.ok ())) : Socket × Except NetError Unit).1 := by
    cases packet.label with
    | Connect => exact ServerInv_packet_action_connection N st now packet addr h
    | Disconnect => exact ServerInv_packet_action_disconnection N st now packet h
    | Ping => exact ServerInv_packet_action_ping N st now packet addr h
    | Error => exact ServerInv_packet_actions_errors N st packet addr h
    | Acknowledge => exact h
    | Message => exact h
    | Extension b => exact h
  exact ServerInv_err_dispatch N now _ hr1

theorem ServerInv_recv (N : Nat) (st : Socket) (now : Nat)
    (addr : ClientAddr) (pkt : Packet) (h : ServerInv N st) :
    ServerInv N (st.recv_process now addr pkt).1 := by
  unfold Socket.recv_process
  cases hv : st.validate now addr pkt with
  | mk st1 x =>
    have h1 : ServerInv N st1 := by
      have hh := ServerInv_validate N st now addr pkt h
      rw [hv] at hh
      exact hh
    cases x with
    | error why =>
      show ServerInv N ((match st1.handle_invalid_packet_err now why with
        | (st2, .error e2) => (st2, Except.error e2)
        | (st2, .ok _) => (st2, Except.error why)) :
          Socket × Except NetError (Option Packet)).1
      cases hh : st1.handle_invalid_packet_err now why with
      | mk st2 y =>
        have h2 : ServerInv N st2 := by
          have hx := ServerInv_handle_invalid N st1 now why h1
          rw [hh] at hx
          exact hx
        cases y with
        | ok u => exact h2
        | error e2 => exact h2
    | ok p1 =>
      show ServerInv N ((match st1.packet_actions now p1 addr with
        | (st2, .error e) => (st2, Except.error e)
        | (st2, .ok _) => (st2, Except.ok (some p1))) :
          Socket × Except NetError (Option Packet)).1
      cases ha2 : st1.packet_actions now p1 addr with
      | mk st2 y =>
        have h2 : ServerInv N st2 := by
          have hx := ServerInv_packet_actions N st1 now p1 addr h1
          rw [ha2] at hx
          exact hx
        cases y with
        | ok u => exact h2
        | error e2 => exact h2

theorem ServerInv_step (N : Nat) (st st' : Socket) (hs : SStep st st')
    (h : ServerInv N st) : ServerInv N st' := by
  cases hs with
  | recv now addr pkt => exact ServerInv_recv N st now addr pkt h
  | sendStep d => exact ServerInv_send N st d h
  | disconnect now id notify => exact ServerInv_disconnect N st now id notify h
  | drainArchive now ms => exact ⟨h.1, h.2.1, h.2.2⟩
  | drainBlacklist now ms => exact ⟨h.1, h.2.1, h.2.2⟩
  | resetErrors now ms => exact ⟨h.1, h.2.1, h.2.2⟩

theorem ServerInv_reach (N : Nat) (st0 st : Socket) (h0 : ServerInv N st0)
    (hr : SReach st0 st) : ServerInv N st := by
  induction hr with
  | refl => exact h0
  | step hr1 hs ih => exact ServerInv_step N _ _ hs ih

theorem nth_replicate {α : Type} (n i : Nat) (a : α) (h : i < n) :
    nth (List.replicate n a) i = some a := by
  induction n generalizing i with
  | zero => omega
  | succ m ih =>
    cases i with
    | zero => rfl
    | succ j => exact ih j (by omega)

theorem ServerInv_new_server (N : Nat) (st0 : Socket)
    (h : Socket.new_server N true = .ok st0) : ServerInv N st0 := by
  unfold Socket.new_server ClientStorage.new at h
  by_cases h1 : 1 + N > 65535
  · rw [if_pos h1] at h
    simp at h
  · rw [if_neg h1] at h
    rw [if_neg (by
      show ¬(ClientId.INVALID ≥ 1 ∧ ClientId.INVALID < 1 + N)
      show ¬((65535 : Nat) ≥ 1 ∧ (65535 : Nat) < 1 + N)
      omega)] at h
    simp only [Except.ok.injEq] at h
    rw [← h]
    refine ⟨rfl, rfl, ?_, rfl, rfl⟩
    refine ⟨?_, ?_, ?_, ?_⟩
    · simp [SparseSet.new, List.length_replicate]
    · show N < ClientId.INVALID
      show N < 65535
      omega
    · intro i e hie
      simp [SparseSet.new, nth] at hie
    · intro k hk
      left
      show nthD (List.replicate N 65535) k 65535 = 65535
      rw [nthD, nth_replicate N k 65535 hk]
      rfl

theorem liveCount_le (N : Nat) (st : Socket) (h : ServerInv N st) :
    liveCount st ≤ N := by
  have hb := SSWF_length_le st.clients.addr h.2.2.1
  rw [h.2.2.2.1] at hb
  exact hb

/-- Claim C3: for a server created over `max_clients = N` (remote role),
every state reachable through receives, sends, disconnects and the
maintenance tasks holds at most `N` live client records; and a `Connect`
carrying an unassigned source that arrives from a fresh address (not
live, archived or blacklisted) while `N` live records exist and the
reuse pool is empty is answered with an outbound `Error` packet whose
payload carries the `TooManyConnections` code, while the receive
returns `NothingToDo` and the client storage — in particular the set of
live records — is left unchanged. -/
theorem C3_admission_cap (N : Nat) (st0 st : Socket)
    (h0 : Socket.new_server N true = .ok st0)
    (hreach : SReach st0 st) :
    liveCount st ≤ N ∧
    (∀ now : Nat, ∀ addr : ClientAddr, ∀ pkt : Packet,
      pkt.label = .Connect → pkt.source = ClientId.INVALID →
      liveCount st = N → st.clients.pool = [] →
      amap.get st.clients.addr_id addr = none →
      amap.get st.clients.archive addr = none →
      st.clients.is_blacklisted addr = false →
      st.recv_process now addr pkt =
        ({ st with sent := st.sent ++ [(addr, capacityErrPacket st.id)] },
          .error .NothingToDo)) := by
  have hinv : ServerInv N st :=
    ServerInv_reach N st0 st (ServerInv_new_server N st0 h0) hreach
  obtain ⟨ha, hrem, hsswf, hcap, hmax⟩ := hinv
  constructor
  · exact liveCount_le N st ⟨ha, hrem, hsswf, hcap, hmax⟩
  · intro now addr pkt hlab hsrc hlive hpool hid harch hbl
    have hpick : st.clients.add_pick addr =
        (st.clients, st.clients.addr.length) := by
      unfold ClientStorage.add_pick
      rw [harch]
      show (match st.clients.pool with
        | i :: rest => ({ st.clients with pool := rest }, i)
        | [] => (st.clients, st.clients.addr.length)) =
          (st.clients, st.clients.addr.length)
      rw [hpool]
    have hcond : st.clients.addr.length ≥ st.clients.max_clients := by
      rw [hmax]
      exact le_of_eq hlive.symm
    have hadd : st.clients.add now addr = (st.clients, .error .AtCapacity) := by
      unfold ClientStorage.add
      rw [if_neg (by rw [hbl]; simp)]
      rw [if_neg (by simp [amap.contains, hid, harch])]
      rw [hpick]
      unfold ClientStorage.add_finish
      rw [if_pos ⟨hcond, hpool⟩]
    have hval : st.validate now addr pkt =
        (st.send_err addr .TooManyConnections msgAtCapacity,
          .error .NothingToDo) := by
      unfold Socket.validate
      rw [if_neg (by rw [hbl]; simp)]
      rw [if_pos hsrc]
      unfold Socket.validate_invalid_client
      rw [if_pos hlab]
      rw [if_pos (show st.is_remote = true from hrem)]
      unfold Socket.add_client
      rw [hadd]
    have hget : st.clients.get_id addr = none := by
      unfold ClientStorage.get_id
      rw [hid]
      rfl
    have hserr : st.send_err addr .TooManyConnections msgAtCapacity =
        { st with sent := st.sent ++ [(addr, capacityErrPacket st.id)] } := by
      unfold Socket.send_err
      rw [hget]
      rfl
    unfold Socket.recv_process
    rw [hval, hserr]
    rfl

/-- Witness for claim C3 on a one-slot server filled by a first
`Connect`: the live count is at the cap, and a second `Connect` from a
fresh address is answered with the `TooManyConnections` error packet. -/
theorem C3_admission_cap_witness :
    liveCount serverFull1 ≤ 1 ∧
    serverFull1.recv_process 200 (.Ip 9 90) connReq =
      ({ serverFull1 with sent := serverFull1.sent ++
          [((.Ip 9 90), capacityErrPacket serverFull1.id)] },
        .error .NothingToDo) :=
  ⟨(C3_admission_cap 1 (sampleServer 1) serverFull1 (by decide)
      (SReach.step SReach.refl
        (SStep.recv (sampleServer 1) 100 (.Ip 7 70) connReq))).1,
   (C3_admission_cap 1 (sampleServer 1) serverFull1 (by decide)
      (SReach.step SReach.refl
        (SStep.recv (sampleServer 1) 100 (.Ip 7 70) connReq))).2
     200 (.Ip 9 90) connReq rfl rfl (by decide) (by decide) (by decide)
     (by decide) (by decide)⟩

theorem client_err_addr (c : ClientStorage) (now : Nat) (a : ClientAddr) :
    (c.client_err now a).addr = c.addr := by
  unfold ClientStorage.client_err
  cases amap.get c.errors a <;> rfl

theorem client_err_id_offset (c : ClientStorage) (now : Nat) (a : ClientAddr) :
    (c.client_err now a).id_offset = c.id_offset := by
  unfold ClientStorage.client_err
  cases amap.get c.errors a <;> rfl

theorem amap_get_erase_self {V : Type} (l : List (ClientAddr × V))
    (k : ClientAddr) : amap.get (amap.erase l k) k = none := by
  induction l with
  | nil => rfl
  | cons p rest ih =>
    show amap.get (List.filter (fun q => !ClientAddr.beq q.1 k) (p :: rest)) k =
      none
    rw [List.filter_cons]
    by_cases hb : ClientAddr.beq p.1 k = true
    · rw [if_neg (by simp [hb])]
      exact ih
    · rw [if_pos (by simp [hb])]
      show (if ClientAddr.beq p.1 k = true then some p.2
        else amap.get (List.filter (fun q => !ClientAddr.beq q.1 k) rest) k) =
          none
      rw [if_neg hb]
      exact ih

theorem sset_remove_snd {T : Type} [Inhabited T] (s : SparseSet T) (k : Nat)
    (v : T) (h : s.get k = some v) : (s.remove k).2 = some v := by
  unfold SparseSet.get at h
  cases hgd : s.get_dense_idx k with
  | none =>
    rw [hgd] at h
    simp at h
  | some d =>
    rw [hgd] at h
    simp only [Option.some_bind] at h
    cases hne : nth s.dense d with
    | none =>
      rw [hne] at h
      simp at h
    | some e =>
      rw [hne] at h
      simp at h
      obtain ⟨hdlt, hkc, hsd⟩ := get_dense_idx_spec s k d hgd
      unfold SparseSet.remove
      rw [if_pos (by unfold SparseSet.has_key; rw [hgd]; rfl)]
      show some (nthD s.dense (nthD s.sparse k s.invalid_key)
        ⟨s.invalid_key, default⟩).value = some v
      rw [hsd]
      rw [show nthD s.dense d ⟨s.invalid_key, default⟩ = e from by
        simp [nthD, hne]]
      rw [h]

theorem has_key_set_invalid {T : Type} (s : SparseSet T) (k : Nat)
    (de1 : List (Entry T)) (sp1 : List Nat)
    (hlen : de1.length < s.invalid_key) :
    SparseSet.has_key
      { s with dense := de1, sparse := setNth sp1 k s.invalid_key } k =
        false := by
  unfold SparseSet.has_key SparseSet.get_dense_idx
  show (if k ≥ s.max_capacity then none
    else if nthD (setNth sp1 k s.invalid_key) k s.invalid_key < de1.length then
      some (nthD (setNth sp1 k s.invalid_key) k s.invalid_key)
    else none).isSome = false
  by_cases hk : k ≥ s.max_capacity
  · rw [if_pos hk]
    rfl
  · rw [if_neg hk]
    have hsp : nthD (setNth sp1 k s.invalid_key) k s.invalid_key =
        s.invalid_key := by
      by_cases hlen2 : k < sp1.length
      · exact nthD_setNth_self sp1 k _ _ hlen2
      · rw [nthD, nth_ge_length _ _ (by rw [length_setNth]; omega)]
        rfl
    rw [hsp, if_neg (by omega)]
    rfl

theorem sset_remove_has_key {T : Type} [Inhabited T] (s : SparseSet T)
    (k : Nat) (hs : s.dense.length ≤ s.invalid_key) :
    ((s.remove k).1).has_key k = false := by
  unfold SparseSet.remove
  by_cases hh : s.has_key k = true
  · rw [if_pos hh]
    have hlen0 : 0 < s.dense.length := by
      unfold SparseSet.has_key at hh
      cases hx : s.get_dense_idx k with
      | none =>
        rw [hx] at hh
        simp at hh
      | some d =>
        obtain ⟨hdlt, _, _⟩ := get_dense_idx_spec s k d hx
        omega
    exact has_key_set_invalid s k _ _ (by
      rw [List.length_dropLast, length_setNth]
      omega)
  · rw [if_neg hh]
    simpa using hh

theorem blacklist_addr_noid (d : ClientStorage) (t2 : Nat) (addr : ClientAddr)
    (p : Nat × Nat)
    (h1 : amap.get d.addr_id addr = none)
    (h2 : amap.get d.archive addr = some p)
    (h3 : d.addr.has_key (d.map_internal (d.map_external p.1)) = false) :
    (d.blacklist_client_addr t2 addr).is_blacklisted addr = true := by
  have hrm : d.remove (d.map_external p.1) = (d, none) := by
    have hsr : d.addr.remove (d.map_internal (d.map_external p.1)) =
        (d.addr, none) := by
      unfold SparseSet.remove
      rw [if_neg (by simp [h3])]
    unfold ClientStorage.remove
    rw [hsr]
  unfold ClientStorage.blacklist_client_addr
  rw [h1, h2]
  show (d.blacklist_client t2 (d.map_external p.1) addr).is_blacklisted addr =
    true
  unfold ClientStorage.blacklist_client
  rw [hrm]
  show (if (amap.get d.archive addr).isSome = true then
      { d with archive := amap.erase d.archive addr,
               blacklist := amap.insert d.blacklist addr t2,
               pool := d.map_internal (d.map_external p.1) :: d.pool }
    else d).is_blacklisted addr = true
  rw [if_pos (by rw [h2]; rfl)]
  unfold ClientStorage.is_blacklisted
  exact amap_contains_insert_self _ addr t2

theorem archive_then_blacklist (c : ClientStorage) (t1 t2 : Nat)
    (addr : ClientAddr) (i cid : Nat)
    (hst : c.addr.get i = some addr)
    (hmap : c.map_internal cid = i)
    (hkinv : c.addr.length ≤ c.addr.invalid_key) :
    ((c.archive_client t1 cid).blacklist_client_addr t2 addr).is_blacklisted
      addr = true := by
  have h2 := sset_remove_snd c.addr i addr hst
  have h3 := sset_remove_has_key c.addr i hkinv
  cases hrem : c.addr.remove i with
  | mk a' o =>
    rw [hrem] at h2 h3
    have h2' : o = some addr := h2
    subst h2'
    have h3' : a'.has_key i = false := h3
    have hcr : c.remove cid = ({ c with
        addr := a',
        addr_id := amap.erase c.addr_id addr,
        sequence := (c.sequence.remove i).1,
        ping := (c.ping.remove i).1 }, some addr) := by
      unfold ClientStorage.remove
      rw [hmap, hrem]
    have harc : c.archive_client t1 cid = { c with
        addr := a',
        addr_id := amap.erase c.addr_id addr,
        sequence := (c.sequence.remove i).1,
        ping := (c.ping.remove i).1,
        archive := amap.insert c.archive addr (c.map_internal cid, t1) } := by
      unfold ClientStorage.archive_client
      rw [hcr]
      rfl
    rw [harc]
    apply blacklist_addr_noid _ t2 addr (c.map_internal cid, t1)
    · exact amap_get_erase_self c.addr_id addr
    · exact amap_get_insert_self c.archive addr (c.map_internal cid, t1)
    · rw [map_internal_map_external]
      show a'.has_key (c.map_internal cid) = false
      rw [hmap]
      exact h3'

theorem recv_blacklisted (st2 : Socket) (now2 : Nat) (addr : ClientAddr)
    (pkt : Packet) (hbl : st2.clients.is_blacklisted addr = true) :
    st2.recv_process now2 addr pkt = (st2, .error .NothingToDo) := by
  unfold Socket.recv_process Socket.validate
  rw [if_pos hbl]
  rfl

/-- Claim C4, amended: on a server, when an `InvalidPacket` error is
charged to a non-blacklisted address whose error count then exceeds 5,
the address is put on the blacklist — any live client record for it is
first disconnected and archived, an archived record's dead index is
reused, an unknown address is blacklisted directly — the triggering
error is demoted to `NothingToDo`, and nothing is transmitted; a
subsequent packet received from that address — in particular a
well-formed `Connect` — is silently dropped: the `recv` returns
`NothingToDo` with the state unchanged, so no `Error` packet carrying
`Blacklisted` is ever sent. -/
theorem C4_blacklist_drop (st : Socket) (now now2 : Nat) (addr : ClientAddr)
    (k : InvalidPacketError) (m : String) (pkt : Packet)
    (hsrv : st.is_server = true)
    (hbl : st.clients.is_blacklisted addr = false)
    (hover : (st.clients.get_errors addr).getD 0 + 1 > 5)
    (hkinv : st.clients.addr.length ≤ st.clients.addr.invalid_key)
    (hcoh : addrCoherent st.clients addr = true) :
    ∃ st2 : Socket,
      st.handle_invalid_packet_err now (.InvalidPacket addr k m) =
        (st2, .error .NothingToDo) ∧
      st2.clients.is_blacklisted addr = true ∧
      st2.sent = st.sent ∧
      st2.recv_process now2 addr pkt = (st2, .error .NothingToDo) := by
  unfold addrCoherent at hcoh
  cases hgi : amap.get st.clients.addr_id addr with
  | some i =>
    rw [hgi] at hcoh
    have hstored : st.clients.addr.get i = some addr := of_decide_eq_true hcoh
    have hgid : st.clients.get_id addr = some (st.clients.map_external i) := by
      unfold ClientStorage.get_id
      rw [hgi]
      rfl
    have hdisc : ({ st with clients := st.clients.client_err now addr } :
        Socket).disconnect_client now (st.clients.map_external i) false =
        ({ st with
            clients := (st.clients.client_err now addr).archive_client now
              (st.clients.map_external i) }, .ok ()) := by
      unfold Socket.disconnect_client
      rw [if_neg (by simp [show ({ st with
        clients := st.clients.client_err now addr } : Socket).is_server = true
        from hsrv])]
      rfl
    have hblk2 : (((st.clients.client_err now addr).archive_client now
        (st.clients.map_external i)).blacklist_client_addr now
        addr).is_blacklisted addr = true := by
      apply archive_then_blacklist _ now now addr i (st.clients.map_external i)
      · rw [client_err_addr]
        exact hstored
      · unfold ClientStorage.map_internal ClientStorage.map_external
        rw [client_err_id_offset]
        omega
      · rw [client_err_addr]
        exact hkinv
    refine ⟨{ st with clients :=
        ((st.clients.client_err now addr).archive_client now
          (st.clients.map_external i)).blacklist_client_addr now addr },
      ?_, hblk2, rfl, recv_blacklisted _ now2 addr pkt hblk2⟩
    unfold Socket.handle_invalid_packet_err
    simp only [hsrv, hbl, get_errors_client_err, get_id_client_err, hgid]
    simp [hover, hdisc]
  | none =>
    rw [hgi] at hcoh
    have hgid : st.clients.get_id addr = none := by
      unfold ClientStorage.get_id
      rw [hgi]
      rfl
    cases hga : amap.get st.clients.archive addr with
    | some p =>
      rw [hga] at hcoh
      have hhk : st.clients.addr.has_key p.1 = false := by
        simpa using hcoh
      have hblk2 : ((st.clients.client_err now addr).blacklist_client_addr now
          addr).is_blacklisted addr = true := by
        apply blacklist_addr_noid _ now addr p
        · rw [client_err_addr_id]
          exact hgi
        · rw [client_err_archive]
          exact hga
        · rw [map_internal_map_external]
          show (st.clients.client_err now addr).addr.has_key p.1 = false
          rw [client_err_addr]
          exact hhk
      refine ⟨{ st with clients :=
          (st.clients.client_err now addr).blacklist_client_addr now addr },
        ?_, hblk2, rfl, recv_blacklisted _ now2 addr pkt hblk2⟩
      unfold Socket.handle_invalid_packet_err
      simp only [hsrv, hbl, get_errors_client_err, get_id_client_err, hgid]
      simp [hover]
    | none =>
      have hblk2 : ((st.clients.client_err now addr).blacklist_client_addr now
          addr).is_blacklisted addr = true := by
        unfold ClientStorage.blacklist_client_addr
        rw [client_err_addr_id, client_err_archive, hgi, hga]
        show ClientStorage.is_blacklisted
          { st.clients.client_err now addr with
            blacklist := amap.insert (st.clients.client_err now addr).blacklist
              addr now } addr = true
        unfold ClientStorage.is_blacklisted
        exact amap_contains_insert_self _ addr now
      refine ⟨{ st with clients :=
          (st.clients.client_err now addr).blacklist_client_addr now addr },
        ?_, hblk2, rfl, recv_blacklisted _ now2 addr pkt hblk2⟩
      unfold Socket.handle_invalid_packet_err
      simp only [hsrv, hbl, get_errors_client_err, get_id_client_err, hgid]
      simp [hover]

/-- Witness for claim C4's amended theorem on an admitted client: the
peer `Ip 7 70` holds a live record on `serverWith1`, five `InvalidPacket`
charges are on the books, and the sixth disconnects the live record and
blacklists the address; its next `Connect` is silently dropped. -/
theorem C4_blacklist_drop_witness :
    ∃ st2 : Socket,
      (chargeList serverWith1 150 (.Ip 7 70)
          [(.Payload, "a"), (.Payload, "b"), (.Payload, "c"),
           (.Payload, "d"), (.Payload, "e")]).handle_invalid_packet_err 150
          (.InvalidPacket (.Ip 7 70) .Payload "f") =
        (st2, .error .NothingToDo) ∧
      st2.clients.is_blacklisted (.Ip 7 70) = true ∧
      st2.sent = (chargeList serverWith1 150 (.Ip 7 70)
          [(.Payload, "a"), (.Payload, "b"), (.Payload, "c"),
           (.Payload, "d"), (.Payload, "e")]).sent ∧
      st2.recv_process 200 (.Ip 7 70) connReq = (st2, .error .NothingToDo) :=
  C4_blacklist_drop
    (chargeList serverWith1 150 (.Ip 7 70)
      [(.Payload, "a"), (.Payload, "b"), (.Payload, "c"),
       (.Payload, "d"), (.Payload, "e")])
    150 200 (.Ip 7 70) .Payload "f" connReq
    (by decide) (by decide) (by decide) (by decide) (by decide)
